import Mathlib

/-! Verification development for `finale/esp_fw/main/tcp_client.c`.

A shallow embedding of the firmware's three pieces of logic:

* `event_handler` (the Wi-Fi event callback) acting on the event group bits,
* `tcp_client_task` (the session loop) as a step function driven by the
  return values of `socket`, `connect` and `recv`,
* `button_task` (the polling loop) as a per-tick step on the two counters.

C `int` values are integers; the increment of a counter wraps to 32 bits and the
comparison of a counter with the `size_t` constant `no_ticks` converts the counter to
an unsigned 32-bit value first, as the C conversion rules prescribe on the target.
Calls into the RTOS, the network stack and the drivers are recorded in a trace of
`Call` values; the values they return are inputs of the step functions.
-/

namespace TcpClient

/-! ## Constants of the source -/

/-- Source: `#define HOST_IP_ADDR "192.168.1.107"` -/
def HOST_IP_ADDR : String := "192.168.1.107"

/-- Source: `#define PORT 2000` -/
def PORT : Nat := 2000

def GPIO_LED_RED : Nat := 22
def GPIO_LED_YEL : Nat := 23
def GPIO_LED_GREEN : Nat := 17
def GPIO_LED_BLUE : Nat := 5
def GPIO_BTN1 : Nat := 15
def GPIO_BTN2 : Nat := 0

def BIT0 : Nat := 1
def BIT1 : Nat := 2

/-- Source: `const int IPV4_GOTIP_BIT = BIT0;` -/
def IPV4_GOTIP_BIT : Nat := BIT0

/-- Source: `const int IPV6_GOTIP_BIT = BIT1;` -/
def IPV6_GOTIP_BIT : Nat := BIT1

/-- The return value `ESP_OK` of `event_handler`. -/
def ESP_OK : Int := 0

/-- The character `'0'`. -/
def CHAR_0 : Nat := 48

/-- The character `'1'`. -/
def CHAR_1 : Nat := 49

/-- Source: `const size_t no_ticks = 5; // 50 ms` -/
def no_ticks : Int := 5

/-- The value of `sizeof(rx_buffer)` for `char rx_buffer[128]`. -/
def RX_BUFFER_SIZE : Nat := 128

/-! ## Machine integers -/

/-- Value of a C `int` after an arithmetic result is stored back (32-bit two's complement). -/
def toInt32 (x : Int) : Int := (x + 2147483648) % 4294967296 - 2147483648

/-- Conversion of an `int` to the unsigned 32-bit `size_t` of the target. -/
def toSizeT (x : Int) : Int := x % 4294967296

/-! ## Calls into the environment -/

/-- Calls the firmware makes into the RTOS, the Wi-Fi driver and the socket layer. -/
inductive Call where
  | esp_wifi_connect
  | tcpip_adapter_create_ip6_linklocal
  | xEventGroupSetBits (bits : Nat)
  | xEventGroupClearBits (bits : Nat)
  | xEventGroupWaitBits (bits : Nat)
  | socket
  | connect (fd : Int) (addr : String) (port : Nat)
  | recv (fd : Int) (size : Nat)
  | shutdown (fd : Int)
  | close (fd : Int)
  | send (fd : Int) (byte : Nat)
  | vTaskDelay (ms : Nat)
  | vTaskDelete
  deriving DecidableEq, Repr

/-! ## LED outputs and `data_received` -/

/-- Levels of the output pins, by pin number. -/
abbrev Pins := Nat → Nat

/-- The driver call `gpio_set_level(pin, level)`: sets one pin, leaves the others. -/
def gpio_set_level (pin level : Nat) (g : Pins) : Pins :=
  fun p => if p = pin then level else g p

/-- The byte `rx_buf[i]` of a buffer held as a list. -/
def byteAt (rx_buf : List Nat) (i : Nat) : Nat := rx_buf.getD i 0

/-- The function `data_received` (lines 54-62): two pins cleared, then one of them set
according to `rx_buf[0]`. -/
def data_received (rx_buf : List Nat) (g : Pins) : Pins :=
  let g := gpio_set_level GPIO_LED_RED 0 g
  let g := gpio_set_level GPIO_LED_YEL 0 g
  let g := if byteAt rx_buf 0 = CHAR_0 then gpio_set_level GPIO_LED_RED 1 g else g
  let g := if byteAt rx_buf 0 = CHAR_1 then gpio_set_level GPIO_LED_YEL 1 g else g
  g

/-! ## The event group and `event_handler` -/

/-- FreeRTOS `xEventGroupSetBits`: the new value of the group's bits. -/
def xEventGroupSetBits (group bits : Nat) : Nat := group ||| bits

/-- FreeRTOS `xEventGroupClearBits`: `group & ~bits`. -/
def xEventGroupClearBits (group bits : Nat) : Nat := group ^^^ (group &&& bits)

/-- The IPv4 address-acquired flag of an event group value: bit 0, `IPV4_GOTIP_BIT`. -/
def ipv4 (group : Nat) : Bool := group.testBit 0

/-- The IPv6 address-acquired flag of an event group value: bit 1, `IPV6_GOTIP_BIT`. -/
def ipv6 (group : Nat) : Bool := group.testBit 1

/-- The wait condition of `wait_for_ip`: all of `IPV4_GOTIP_BIT | IPV6_GOTIP_BIT` set. -/
def allBitsSet (group : Nat) : Bool :=
  group &&& (IPV4_GOTIP_BIT ||| IPV6_GOTIP_BIT) == (IPV4_GOTIP_BIT ||| IPV6_GOTIP_BIT)

/-- The `event_id` values of `system_event_t`: those the switch names, and any other. -/
inductive system_event_id_t where
  | SYSTEM_EVENT_STA_START
  | SYSTEM_EVENT_STA_CONNECTED
  | SYSTEM_EVENT_STA_GOT_IP
  | SYSTEM_EVENT_STA_DISCONNECTED
  | SYSTEM_EVENT_AP_STA_GOT_IP6
  | other (id : Nat)
  deriving DecidableEq, Repr

/-- The callback `event_handler` (lines 64-94): new event group bits, calls made, return
value. -/
def event_handler (group : Nat) (event_id : system_event_id_t) : Nat × List Call × Int :=
  match event_id with
  | .SYSTEM_EVENT_STA_START =>
      (group, [Call.esp_wifi_connect], ESP_OK)
  | .SYSTEM_EVENT_STA_CONNECTED =>
      (group, [Call.tcpip_adapter_create_ip6_linklocal], ESP_OK)
  | .SYSTEM_EVENT_STA_GOT_IP =>
      (xEventGroupSetBits group IPV4_GOTIP_BIT, [Call.xEventGroupSetBits IPV4_GOTIP_BIT], ESP_OK)
  | .SYSTEM_EVENT_STA_DISCONNECTED =>
      (xEventGroupClearBits (xEventGroupClearBits group IPV4_GOTIP_BIT) IPV6_GOTIP_BIT,
        [Call.esp_wifi_connect, Call.xEventGroupClearBits IPV4_GOTIP_BIT,
          Call.xEventGroupClearBits IPV6_GOTIP_BIT], ESP_OK)
  | .SYSTEM_EVENT_AP_STA_GOT_IP6 =>
      -- falls through into `default: break;`
      (xEventGroupSetBits group IPV6_GOTIP_BIT, [Call.xEventGroupSetBits IPV6_GOTIP_BIT], ESP_OK)
  | .other _ =>
      (group, [], ESP_OK)

/-! ## `button_task` -/

/-- What one pass of the polling loop reads: the shared `sock` and the two raw levels. -/
structure Sample where
  sock : Int
  btn1 : Int
  btn2 : Int
  deriving DecidableEq, Repr

/-- One button's block of the loop body (lines 201-210 with `"0"`, lines 212-221 with `"1"`):
the new counter and the `send` calls made. -/
def button_block (byte : Nat) (sock level cnt : Int) : Int × List Call :=
  if level = 0 then
    let cnt := if cnt ≥ 0 then toInt32 (cnt + 1) else cnt
    if toSizeT cnt = no_ticks then
      (-1, if sock ≥ 0 then [Call.send sock byte] else [])
    else
      (cnt, [])
  else
    (0, [])

/-- The two static counters `btn1_cnt` and `btn2_cnt`. -/
structure Counters where
  btn1_cnt : Int
  btn2_cnt : Int
  deriving DecidableEq, Repr

/-- One pass of the `while (1)` body of `button_task` (lines 201-223), delay excluded. -/
def button_task_tick (x : Sample) (c : Counters) : Counters × List Call :=
  let r1 := button_block CHAR_0 x.sock x.btn1 c.btn1_cnt
  let r2 := button_block CHAR_1 x.sock x.btn2 c.btn2_cnt
  (⟨r1.1, r2.1⟩, r1.2 ++ r2.2)

/-- The polling loop over a finite sequence of samples: final counters and all calls made. -/
def button_task_run (c : Counters) : List Sample → Counters × List Call
  | [] => (c, [])
  | x :: xs =>
      let r := button_task_tick x c
      let rest := button_task_run r.1 xs
      (rest.1, r.2 ++ rest.2)

/-- The polling loop seen from one button: the button's counter and its `send` calls over
a sequence of samples, `lvl` selecting the button's raw level. -/
def button_block_run (byte : Nat) (lvl : Sample → Int) (cnt : Int) :
    List Sample → Int × List Call
  | [] => (cnt, [])
  | x :: xs =>
      let r := button_block byte x.sock (lvl x) cnt
      let rest := button_block_run byte lvl r.1 xs
      (rest.1, r.2 ++ rest.2)

/-- The `send` calls of a trace that carry the given byte. -/
def sendsOf (byte : Nat) (tr : List Call) : List Call :=
  tr.filter (fun c => match c with
    | Call.send _ b => b == byte
    | _ => false)

/-! ## `tcp_client_task` -/

/-- Where `tcp_client_task` stands: at its entry, blocked inside `xEventGroupWaitBits`,
made ready again by the event group, about to call `socket`, `connect` or `recv`, or
deleted by `vTaskDelete` after leaving the outer loop. -/
inductive Pc where
  | entry
  | blocked
  | woken
  | at_socket
  | at_connect
  | at_recv
  | deleted
  deriving DecidableEq, Repr

/-- What the environment hands back to the call the task is standing at: the return
value of `socket`, `connect` or `recv`, and for `recv` the bytes it stored. -/
structure Resp where
  ret : Int
  data : List Nat
  deriving DecidableEq, Repr

/-- State of the firmware: the event group bits, the shared `sock`, the session task's
position and buffer, the output pins, and the button task's position and counters. -/
structure State where
  wifi_event_group : Nat
  sock : Int
  pc : Pc
  rx_buffer : List Nat
  pins : Pins
  btn_pc : Nat
  cnt : Counters

/-- State after `app_main`: `sock = -1`, an empty event group, both tasks at their entry.
The buffer is uninitialised stack memory and the pins are as the hardware left them. -/
def init (rx_buffer : List Nat) (pins : Pins) : State :=
  { wifi_event_group := 0, sock := -1, pc := .entry, rx_buffer := rx_buffer, pins := pins,
    btn_pc := 0, cnt := ⟨0, 0⟩ }

/-- The argument of `wait_for_ip` (lines 115-121): the bits waited for, all of them (`xWaitForAllBits` true),
not cleared on exit, with no timeout. -/
def wait_for_ip_bits : Nat := IPV4_GOTIP_BIT ||| IPV6_GOTIP_BIT

/-- Lines 126-129 and the entry into the outer loop, once `wait_for_ip` has returned. -/
def after_wait (s : State) : State :=
  { s with
    pins := gpio_set_level GPIO_LED_RED 0 (gpio_set_level GPIO_LED_YEL 0
      (gpio_set_level GPIO_LED_GREEN 0 (gpio_set_level GPIO_LED_BLUE 0 s.pins)))
    pc := .at_socket }

/-- The buffer after `recv` stored `data` at its start and line 168 wrote the terminator
`rx_buffer[len] = 0`. -/
def store_chunk (rx_buffer : List Nat) (len : Int) (data : List Nat) : List Nat :=
  (data ++ rx_buffer.drop data.length).set len.toNat 0

/-- One scheduling step of `tcp_client_task` (lines 123-184): from the point the task
stands at, through the call it makes there with environment result `r`, up to its next
call. -/
def tcp_client_task (s : State) (r : Resp) : State × List Call :=
  match s.pc with
  | .entry =>
      if allBitsSet s.wifi_event_group then
        (after_wait s, [Call.xEventGroupWaitBits wait_for_ip_bits])
      else
        ({ s with pc := .blocked }, [Call.xEventGroupWaitBits wait_for_ip_bits])
  | .blocked => (s, [])
  | .woken => (after_wait s, [])
  | .at_socket =>
      let s : State := { s with sock := r.ret }
      if s.sock < 0 then
        ({ s with pc := .deleted }, [Call.socket, Call.vTaskDelete])
      else
        ({ s with pc := .at_connect }, [Call.socket])
  | .at_connect =>
      let err := r.ret
      if err ≠ 0 then
        ({ s with pc := .deleted }, [Call.connect s.sock HOST_IP_ADDR PORT, Call.vTaskDelete])
      else
        ({ s with pc := .at_recv }, [Call.connect s.sock HOST_IP_ADDR PORT])
  | .at_recv =>
      let len := r.ret
      if len < 0 then
        if s.sock ≠ -1 then
          ({ s with pc := .at_socket },
            [Call.recv s.sock (RX_BUFFER_SIZE - 1), Call.shutdown s.sock, Call.close s.sock])
        else
          ({ s with pc := .at_socket }, [Call.recv s.sock (RX_BUFFER_SIZE - 1)])
      else
        let rx_buffer := store_chunk s.rx_buffer len r.data
        ({ s with rx_buffer := rx_buffer, pins := data_received rx_buffer s.pins },
          [Call.recv s.sock (RX_BUFFER_SIZE - 1), Call.vTaskDelay 10])
  | .deleted => (s, [])

/-- One scheduling step of `button_task` (lines 186-227): the four start-up steps that
light the LEDs, then one pass of the polling loop per step. -/
def button_task (s : State) (btn1 btn2 : Int) : State × List Call :=
  match s.btn_pc with
  | 0 => ({ s with pins := gpio_set_level GPIO_LED_BLUE 1 s.pins, btn_pc := 1 },
      [Call.vTaskDelay 200])
  | 1 => ({ s with pins := gpio_set_level GPIO_LED_GREEN 1 s.pins, btn_pc := 2 },
      [Call.vTaskDelay 200])
  | 2 => ({ s with pins := gpio_set_level GPIO_LED_YEL 1 s.pins, btn_pc := 3 },
      [Call.vTaskDelay 200])
  | 3 => ({ s with pins := gpio_set_level GPIO_LED_RED 1 s.pins, btn_pc := 4 },
      [Call.vTaskDelay 200])
  | _ =>
      let r := button_task_tick ⟨s.sock, btn1, btn2⟩ s.cnt
      ({ s with cnt := r.1 }, r.2 ++ [Call.vTaskDelay 10])

/-- What the scheduler and the environment do next: deliver an event to the callback,
let the session task run to its next call, or let the button task run one step. -/
inductive Input where
  | event (event_id : system_event_id_t)
  | task (r : Resp)
  | button (btn1 btn2 : Int)
  deriving DecidableEq, Repr

/-- One step of the interleaved system. Setting bits in the event group makes a task that
is blocked in `xEventGroupWaitBits` ready as soon as its wait condition holds. -/
def step (s : State) : Input → State × List Call
  | .event event_id =>
      let r := event_handler s.wifi_event_group event_id
      ({ s with
          wifi_event_group := r.1
          pc := if s.pc = .blocked ∧ allBitsSet r.1 = true then .woken else s.pc },
        r.2.1)
  | .task r => tcp_client_task s r
  | .button btn1 btn2 => button_task s btn1 btn2

/-- An execution: the state after a finite sequence of steps and all calls made. -/
def run (s : State) : List Input → State × List Call
  | [] => (s, [])
  | i :: rest =>
      let r := step s i
      let t := run r.1 rest
      (t.1, r.2 ++ t.2)

/-- A TCP session is established: the task is in its inner receive loop. -/
def established (s : State) : Bool := s.pc == .at_recv

/-- The calls of the session's socket life cycle. -/
def isSessionCall : Call → Bool
  | .socket => true
  | .connect _ _ _ => true
  | .recv _ _ => true
  | .shutdown _ => true
  | .close _ => true
  | _ => false

/-- A `send` call. -/
def isSend : Call → Bool
  | .send _ _ => true
  | _ => false

/-- What the code keeps true of the shared `sock`: it is -1 until `wait_for_ip` has
returned, and non-negative from a successful `socket` call to the end of the session. -/
def handleInv (s : State) : Prop :=
  (s.pc = .at_connect ∨ s.pc = .at_recv → 0 ≤ s.sock) ∧
  (s.pc = .entry ∨ s.pc = .blocked ∨ s.pc = .woken → s.sock = -1)

/-- An input that is not a step of the session task. -/
def notTask : Input → Bool
  | .task _ => false
  | _ => true

/-- Both addresses arrive, the wait returns, `socket` returns descriptor 3. -/
def scenarioSocketCreated : List Input :=
  [.event .SYSTEM_EVENT_AP_STA_GOT_IP6, .event .SYSTEM_EVENT_STA_GOT_IP, .task ⟨0, []⟩,
    .task ⟨3, []⟩]

/-- As `scenarioSocketCreated`, then `connect` succeeds: a session is established. -/
def scenarioEstablished : List Input :=
  scenarioSocketCreated ++ [.task ⟨0, []⟩]

/-- As `scenarioEstablished`, then the station is disassociated: both address flags are
cleared while the session is still established. -/
def scenarioDisassociated : List Input :=
  scenarioEstablished ++ [.event .SYSTEM_EVENT_STA_DISCONNECTED]

/-- A `recv` result: the three bytes of the chunk `"10x"`. -/
def chunk10x : Resp := ⟨3, [49, 48, 120]⟩

/-- As `scenarioSocketCreated`, then `connect` fails with -1. -/
def scenarioConnectFails : List Input :=
  scenarioSocketCreated ++ [.task ⟨-1, []⟩]

/-- As `scenarioSocketCreated`, then `connect` succeeds, the chunk `"10x"` is received and
the next `recv` fails with -1. -/
def scenarioRecvFails : List Input :=
  scenarioSocketCreated ++ [.task ⟨0, []⟩, .task ⟨3, [49, 48, 120]⟩, .task ⟨-1, []⟩]

/-- The button task's four start-up steps, then button 1 held for five passes of the loop. -/
def scenarioPress : List Input :=
  [.button 1 1, .button 1 1, .button 1 1, .button 1 1,
    .button 0 1, .button 0 1, .button 0 1, .button 0 1, .button 0 1]

/-- The state of the firmware after `app_main`, with a zeroed buffer and all pins low. -/
def init0 : State := init (List.replicate 128 0) (fun _ => 0)

/-! ## Runs of pressed samples -/

/-- Lengths of the maximal runs of consecutive elements satisfying `p`, in order;
`cur` is the length of the run in progress. -/
def runLengthsFrom (p : α → Bool) : Nat → List α → List Nat
  | cur, [] => if cur = 0 then [] else [cur]
  | cur, x :: xs =>
      if p x then runLengthsFrom p (cur + 1) xs
      else (if cur = 0 then [] else [cur]) ++ runLengthsFrom p 0 xs

/-- Lengths of the maximal runs of consecutive elements satisfying `p`. -/
def runLengths (p : α → Bool) (xs : List α) : List Nat := runLengthsFrom p 0 xs

/-- Number of maximal runs of consecutive pressed samples of button 1 that last at least
`no_ticks` = 5 samples. -/
def longPresses1 (xs : List Sample) : Nat :=
  (runLengths (fun x : Sample => decide (x.btn1 = 0)) xs).countP (fun n => decide (5 ≤ n))

/-- Number of maximal runs of consecutive pressed samples of button 2 that last at least
`no_ticks` = 5 samples. -/
def longPresses2 (xs : List Sample) : Nat :=
  (runLengths (fun x : Sample => decide (x.btn2 = 0)) xs).countP (fun n => decide (5 ≤ n))

end TcpClient

namespace TcpClient

/-! ## The button automaton, one step -/

theorem button_block_released (byte : Nat) (sock level cnt : Int) (h : level ≠ 0) :
    button_block byte sock level cnt = (0, []) := by
  simp [button_block, h]

theorem button_block_counting (byte : Nat) (sock cnt : Int) (h0 : 0 ≤ cnt) (h4 : cnt < 4) :
    button_block byte sock 0 cnt = (cnt + 1, []) := by
  have e : toInt32 (cnt + 1) = cnt + 1 := by unfold toInt32; omega
  have ne : ¬ toSizeT (cnt + 1) = no_ticks := by unfold toSizeT no_ticks; omega
  simp [button_block, h0, e, ne]

theorem button_block_fire (byte : Nat) (sock : Int) :
    button_block byte sock 0 4 = (-1, if sock ≥ 0 then [Call.send sock byte] else []) := by
  simp [button_block, toInt32, toSizeT, no_ticks]

theorem button_block_armed (byte : Nat) (sock : Int) :
    button_block byte sock 0 (-1) = (-1, []) := by
  simp [button_block, toSizeT, no_ticks]

theorem sendsOf_append (byte : Nat) (a b : List Call) :
    sendsOf byte (a ++ b) = sendsOf byte a ++ sendsOf byte b := by
  simp [sendsOf]

theorem sendsOf_block_same (byte : Nat) (sock level cnt : Int) :
    sendsOf byte (button_block byte sock level cnt).2 = (button_block byte sock level cnt).2 := by
  simp only [button_block]
  split_ifs <;> simp [sendsOf]

theorem sendsOf_block_other (byte other : Nat) (h : other ≠ byte) (sock level cnt : Int) :
    sendsOf byte (button_block other sock level cnt).2 = [] := by
  simp only [button_block]
  split_ifs <;> simp [sendsOf, h]

/-- Button 1 inside the joint loop is the one-button automaton on the `btn1` levels. -/
theorem run_btn1 (xs : List Sample) (c : Counters) :
    (button_task_run c xs).1.btn1_cnt = (button_block_run CHAR_0 Sample.btn1 c.btn1_cnt xs).1 ∧
    sendsOf CHAR_0 (button_task_run c xs).2
      = (button_block_run CHAR_0 Sample.btn1 c.btn1_cnt xs).2 := by
  induction xs generalizing c with
  | nil => simp [button_task_run, button_block_run, sendsOf]
  | cons x xs ih =>
    have h := ih (button_task_tick x c).1
    simp only [button_task_tick] at h
    simp only [button_task_run, button_block_run, button_task_tick, sendsOf_append]
    refine ⟨h.1, ?_⟩
    rw [h.2, sendsOf_block_same, sendsOf_block_other CHAR_0 CHAR_1 (by decide), List.append_nil]

/-- Button 2 inside the joint loop is the one-button automaton on the `btn2` levels. -/
theorem run_btn2 (xs : List Sample) (c : Counters) :
    (button_task_run c xs).1.btn2_cnt = (button_block_run CHAR_1 Sample.btn2 c.btn2_cnt xs).1 ∧
    sendsOf CHAR_1 (button_task_run c xs).2
      = (button_block_run CHAR_1 Sample.btn2 c.btn2_cnt xs).2 := by
  induction xs generalizing c with
  | nil => simp [button_task_run, button_block_run, sendsOf]
  | cons x xs ih =>
    have h := ih (button_task_tick x c).1
    simp only [button_task_tick] at h
    simp only [button_task_run, button_block_run, button_task_tick, sendsOf_append]
    refine ⟨h.1, ?_⟩
    rw [h.2, sendsOf_block_same, sendsOf_block_other CHAR_1 CHAR_0 (by decide), List.nil_append]

/-! ## The button automaton over a run of samples -/

theorem block_run_append (byte : Nat) (lvl : Sample → Int) (xs ys : List Sample) (cnt : Int) :
    button_block_run byte lvl cnt (xs ++ ys)
      = ((button_block_run byte lvl (button_block_run byte lvl cnt xs).1 ys).1,
          (button_block_run byte lvl cnt xs).2
            ++ (button_block_run byte lvl (button_block_run byte lvl cnt xs).1 ys).2) := by
  induction xs generalizing cnt with
  | nil => simp [button_block_run]
  | cons x xs ih => simp [button_block_run, ih, List.append_assoc]

/-- An armed button stays armed, and silent, for as long as it is held. -/
theorem block_run_armed (byte : Nat) (lvl : Sample → Int) (xs : List Sample)
    (hp : ∀ x ∈ xs, lvl x = 0) : button_block_run byte lvl (-1) xs = (-1, []) := by
  induction xs with
  | nil => simp [button_block_run]
  | cons x xs ih =>
    have hx : lvl x = 0 := hp x (List.mem_cons_self _ _)
    have ih2 := ih (fun y hy => hp y (List.mem_cons_of_mem _ hy))
    simp [button_block_run, hx, button_block_armed, ih2]

/-- Below the threshold a held button only counts. -/
theorem block_run_counting (byte : Nat) (lvl : Sample → Int) (xs : List Sample) (k : Nat)
    (hk : k + xs.length ≤ 4) (hp : ∀ x ∈ xs, lvl x = 0) :
    button_block_run byte lvl (k : Int) xs = ((k : Int) + (xs.length : Int), []) := by
  induction xs generalizing k with
  | nil => simp [button_block_run]
  | cons x xs ih =>
    have hx : lvl x = 0 := hp x (List.mem_cons_self _ _)
    simp only [List.length_cons] at hk
    have ih2 := ih (k + 1) (by omega) (fun y hy => hp y (List.mem_cons_of_mem _ hy))
    have hc := button_block_counting byte x.sock (k : Int) (by omega) (by omega)
    simp only [button_block_run, hx, hc]
    push_cast at ih2
    rw [ih2]
    simp only [List.length_cons, List.nil_append, Prod.mk.injEq, and_true]
    push_cast
    ring

/-- A button held from counter `k` through the threshold fires once, on the sample that
brings the counter to 5, with the socket read on that sample. -/
theorem block_run_fire (byte : Nat) (lvl : Sample → Int) (d : Sample) (xs : List Sample)
    (k : Nat) (hk : k ≤ 4) (hlen : 5 ≤ k + xs.length) (hp : ∀ x ∈ xs, lvl x = 0) :
    button_block_run byte lvl (k : Int) xs
      = (-1, if (xs.getD (4 - k) d).sock ≥ 0 then [Call.send (xs.getD (4 - k) d).sock byte]
             else []) := by
  induction xs generalizing k with
  | nil => simp at hlen; omega
  | cons x xs ih =>
    have hx : lvl x = 0 := hp x (List.mem_cons_self _ _)
    have hp2 : ∀ y ∈ xs, lvl y = 0 := fun y hy => hp y (List.mem_cons_of_mem _ hy)
    simp only [List.length_cons] at hlen
    rcases Nat.lt_or_ge k 4 with h4 | h4
    · have ih2 := ih (k + 1) (by omega) (by omega) hp2
      have hc := button_block_counting byte x.sock (k : Int) (by omega) (by omega)
      have e : 4 - k = (4 - (k + 1)) + 1 := by omega
      simp only [button_block_run, hx, hc]
      push_cast at ih2
      rw [ih2, e]
      simp
    · have hk4 : k = 4 := by omega
      subst hk4
      have hf := button_block_fire byte x.sock
      simp only [button_block_run, hx]
      have hf2 : button_block byte x.sock 0 ((4 : Nat) : Int)
          = (-1, if x.sock ≥ 0 then [Call.send x.sock byte] else []) := by
        simpa using hf
      rw [hf2, block_run_armed byte lvl xs hp2]
      simp

/-- The counter of a button does not depend on the socket values read. -/
theorem button_block_cnt_sock (byte byte2 : Nat) (sock sock2 level cnt : Int) :
    (button_block byte sock level cnt).1 = (button_block byte2 sock2 level cnt).1 := by
  simp only [button_block]
  split_ifs <;> rfl

/-- With no published socket a button block makes no call. -/
theorem button_block_no_sock (byte : Nat) (sock level cnt : Int) (h : sock < 0) :
    (button_block byte sock level cnt).2 = [] := by
  have h2 : ¬ sock ≥ 0 := by omega
  simp only [button_block]
  split_ifs <;> rfl

/-- The one-button automaton reads only the socket and its own level. -/
theorem block_run_congr (byte : Nat) (lvl lvl2 : Sample → Int) (xs ys : List Sample) (cnt : Int)
    (h : xs.map (fun x => (x.sock, lvl x)) = ys.map (fun x => (x.sock, lvl2 x))) :
    button_block_run byte lvl cnt xs = button_block_run byte lvl2 cnt ys := by
  induction xs generalizing ys cnt with
  | nil =>
    cases ys with
    | nil => rfl
    | cons y ys => simp at h
  | cons x xs ih =>
    cases ys with
    | nil => simp at h
    | cons y ys =>
      simp only [List.map_cons, List.cons.injEq, Prod.mk.injEq] at h
      obtain ⟨⟨h1, h2⟩, h3⟩ := h
      simp only [button_block_run, h1, h2]
      rw [ih ys _ h3]

/-- The counter of a button stays in the range -1 .. 4. -/
theorem button_block_range (byte : Nat) (sock level cnt : Int) (h1 : -1 ≤ cnt) (h4 : cnt ≤ 4) :
    -1 ≤ (button_block byte sock level cnt).1 ∧ (button_block byte sock level cnt).1 ≤ 4 := by
  by_cases hl : level = 0
  · subst hl
    rcases (by omega : cnt = -1 ∨ (0 ≤ cnt ∧ cnt < 4) ∨ cnt = 4) with h | h | h
    · subst h; rw [button_block_armed]; simp
    · rw [button_block_counting byte sock cnt h.1 h.2]; simp; omega
    · subst h; rw [button_block_fire]; simp
  · rw [button_block_released byte sock level cnt hl]; simp

theorem block_run_range (byte : Nat) (lvl : Sample → Int) (xs : List Sample) (cnt : Int)
    (h1 : -1 ≤ cnt) (h4 : cnt ≤ 4) :
    -1 ≤ (button_block_run byte lvl cnt xs).1 ∧ (button_block_run byte lvl cnt xs).1 ≤ 4 := by
  induction xs generalizing cnt with
  | nil => exact ⟨h1, h4⟩
  | cons x xs ih =>
    have h := button_block_range byte x.sock (lvl x) cnt h1 h4
    exact ih _ h.1 h.2

/-! ## Maximal runs -/

/-- A list of elements that all satisfy `p` is one run, continuing the run in progress. -/
theorem runLengthsFrom_all (p : α → Bool) (xs : List α) (cur : Nat)
    (h : ∀ x ∈ xs, p x = true) :
    runLengthsFrom p cur xs = if cur + xs.length = 0 then [] else [cur + xs.length] := by
  induction xs generalizing cur with
  | nil => simp [runLengthsFrom]
  | cons x xs ih =>
    have hx : p x = true := h x (List.mem_cons_self _ _)
    have ih2 := ih (cur + 1) (fun y hy => h y (List.mem_cons_of_mem _ hy))
    simp only [runLengthsFrom, hx, if_true, ih2, List.length_cons]
    have e : cur + 1 + xs.length = cur + (xs.length + 1) := by omega
    rw [e]

/-- A run is closed by the first element that does not satisfy `p`; the lengths of the
runs after it do not depend on what came before. -/
theorem runLengthsFrom_gap (p : α → Bool) (xs : List α) (y : α) (rest : List α) (cur : Nat)
    (h : ∀ x ∈ xs, p x = true) (hy : p y = false) :
    runLengthsFrom p cur (xs ++ y :: rest)
      = (if cur + xs.length = 0 then [] else [cur + xs.length]) ++ runLengthsFrom p 0 rest := by
  induction xs generalizing cur with
  | nil => simp [runLengthsFrom, hy]
  | cons x xs ih =>
    have hx : p x = true := h x (List.mem_cons_self _ _)
    have ih2 := ih (cur + 1) (fun y hy => h y (List.mem_cons_of_mem _ hy))
    have e : cur + 1 + xs.length = cur + (xs.length + 1) := by omega
    rw [e] at ih2
    rw [List.cons_append]
    simp only [runLengthsFrom, hx, if_true, List.length_cons]
    exact ih2

/-- The maximal runs of a list that starts with a run `xs`, closed by `y`. -/
theorem runLengths_gap (p : α → Bool) (xs : List α) (y : α) (rest : List α)
    (h : ∀ x ∈ xs, p x = true) (hy : p y = false) :
    runLengths p (xs ++ y :: rest)
      = (if xs.length = 0 then [] else [xs.length]) ++ runLengths p rest := by
  have := runLengthsFrom_gap p xs y rest 0 h hy
  rw [Nat.zero_add] at this
  exact this

/-- With a valid socket on every sample, the sends of a button count the maximal runs of
pressed samples that reach the threshold; `cur` is the length of the run in progress, which
has been counted already once it is 5 or more (the button is armed). -/
theorem block_run_count (byte : Nat) (lvl : Sample → Int) (xs : List Sample) (cur : Nat)
    (cnt : Int) (hrel : (cnt = cur ∧ cur ≤ 4) ∨ (cnt = -1 ∧ 5 ≤ cur))
    (hs : ∀ x ∈ xs, 0 ≤ x.sock) :
    (button_block_run byte lvl cnt xs).2.length + (if 5 ≤ cur then 1 else 0)
      = (runLengthsFrom (fun x => decide (lvl x = 0)) cur xs).countP (fun n => decide (5 ≤ n)) := by
  induction xs generalizing cur cnt with
  | nil =>
    simp only [button_block_run, runLengthsFrom, List.length_nil, Nat.zero_add]
    by_cases h0 : cur = 0
    · simp [h0]
    · by_cases h5 : 5 ≤ cur <;> simp [h0, h5]
  | cons x xs ih =>
    have hsx : x.sock ≥ 0 := hs x (List.mem_cons_self _ _)
    have hs2 : ∀ y ∈ xs, 0 ≤ y.sock := fun y hy => hs y (List.mem_cons_of_mem _ hy)
    by_cases hl : lvl x = 0
    · simp only [button_block_run, runLengthsFrom, hl, decide_True, if_true]
      rcases hrel with ⟨hc, h4⟩ | ⟨hc, h5⟩
      · subst hc
        rcases Nat.lt_or_ge cur 4 with h | h
        · have hb := button_block_counting byte x.sock (cur : Int) (by omega) (by omega)
          have ih2 := ih (cur + 1) ((cur : Int) + 1) (Or.inl ⟨by push_cast; rfl, by omega⟩) hs2
          rw [hb]
          have e1 : ¬ 5 ≤ cur := by omega
          have e2 : ¬ 5 ≤ cur + 1 := by omega
          simp only [e1, e2, if_false, Nat.add_zero, List.nil_append] at ih2 ⊢
          exact ih2
        · have h4e : cur = 4 := by omega
          subst h4e
          have hb : button_block byte x.sock 0 ((4 : Nat) : Int) = (-1, [Call.send x.sock byte]) := by
            have := button_block_fire byte x.sock
            simpa [hsx] using this
          have ih2 := ih (4 + 1) (-1) (Or.inr ⟨rfl, le_refl _⟩) hs2
          rw [hb]
          simp only [List.length_append, List.length_singleton] at ih2 ⊢
          simp only [show 5 ≤ 4 + 1 by decide, if_true] at ih2
          simp only [show ¬ (5 ≤ 4) by decide, if_false, Nat.add_zero]
          omega
      · subst hc
        rw [button_block_armed]
        have ih2 := ih (cur + 1) (-1) (Or.inr ⟨rfl, by omega⟩) hs2
        have e1 : 5 ≤ cur + 1 := by omega
        simp only [h5, e1, if_true, List.nil_append] at ih2 ⊢
        exact ih2
    · have hb := button_block_released byte x.sock (lvl x) cnt hl
      have ih2 := ih 0 0 (Or.inl ⟨rfl, by omega⟩) hs2
      simp only [button_block_run, runLengthsFrom, hl, decide_False, hb, List.nil_append,
        Bool.false_eq_true, if_false, List.countP_append]
      simp only [show ¬ (5 ≤ 0) by decide, if_false, Nat.add_zero] at ih2
      rw [← ih2]
      by_cases h0 : cur = 0
      · simp [h0]
      · by_cases h5 : 5 ≤ cur
        · simp [h0, h5]
          omega
        · simp [h0, h5]

/-- The counters after a pass of the loop do not depend on the socket value read. -/
theorem button_task_tick_cnt_sock (x y : Sample) (c : Counters) (h1 : y.btn1 = x.btn1)
    (h2 : y.btn2 = x.btn2) : (button_task_tick y c).1 = (button_task_tick x c).1 := by
  simp only [button_task_tick, h1, h2]
  rw [button_block_cnt_sock CHAR_0 CHAR_0 y.sock x.sock, button_block_cnt_sock CHAR_1 CHAR_1 y.sock x.sock]

theorem button_task_run_cnt_sock (xs ys : List Sample) (c : Counters)
    (h : ys.map (fun y => (y.btn1, y.btn2)) = xs.map (fun x => (x.btn1, x.btn2))) :
    (button_task_run c ys).1 = (button_task_run c xs).1 := by
  induction xs generalizing ys c with
  | nil =>
    cases ys with
    | nil => rfl
    | cons y ys => simp at h
  | cons x xs ih =>
    cases ys with
    | nil => simp at h
    | cons y ys =>
      simp only [List.map_cons, List.cons.injEq, Prod.mk.injEq] at h
      obtain ⟨⟨h1, h2⟩, h3⟩ := h
      simp only [button_task_run]
      rw [button_task_tick_cnt_sock x y c h1 h2]
      exact ih ys _ h3

theorem button_task_run_no_sock (xs : List Sample) (c : Counters) (h : ∀ x ∈ xs, x.sock < 0) :
    (button_task_run c xs).2 = [] := by
  induction xs generalizing c with
  | nil => rfl
  | cons x xs ih =>
    have hx : x.sock < 0 := h x (List.mem_cons_self _ _)
    have ih2 := ih (button_task_tick x c).1 (fun y hy => h y (List.mem_cons_of_mem _ hy))
    simp only [button_task_run, ih2, List.append_nil]
    simp only [button_task_tick, button_block_no_sock _ _ _ _ hx, List.append_nil]

/-! ## Claims about `button_task` -/

/-- C1: for either button, starting idle (counter 0) with a valid socket on every sample,
`n ≥ 5` consecutive pressed samples followed by a released sample produce exactly one send
of the button's byte (`'0'` for button 1, `'1'` for button 2): nothing has been sent after
the first 4 ticks, the one send is there after the 5th tick and after every longer initial part,
and the release adds nothing. -/
theorem long_press_sends_once (n : Nat) (hn : 5 ≤ n) (xs : List Sample) (rel : Sample)
    (c : Counters) (hlen : xs.length = n) (hsock : ∀ x ∈ xs, 0 ≤ x.sock) :
    (c.btn1_cnt = 0 → (∀ x ∈ xs, x.btn1 = 0) → rel.btn1 ≠ 0 →
      sendsOf CHAR_0 (button_task_run c (xs.take 4)).2 = [] ∧
      (∀ m, 5 ≤ m → sendsOf CHAR_0 (button_task_run c (xs.take m)).2
        = [Call.send (xs.getD 4 rel).sock CHAR_0]) ∧
      sendsOf CHAR_0 (button_task_run c (xs ++ [rel])).2
        = [Call.send (xs.getD 4 rel).sock CHAR_0]) ∧
    (c.btn2_cnt = 0 → (∀ x ∈ xs, x.btn2 = 0) → rel.btn2 ≠ 0 →
      sendsOf CHAR_1 (button_task_run c (xs.take 4)).2 = [] ∧
      (∀ m, 5 ≤ m → sendsOf CHAR_1 (button_task_run c (xs.take m)).2
        = [Call.send (xs.getD 4 rel).sock CHAR_1]) ∧
      sendsOf CHAR_1 (button_task_run c (xs ++ [rel])).2
        = [Call.send (xs.getD 4 rel).sock CHAR_1]) := by
  have key : ∀ (byte : Nat) (lvl : Sample → Int), (∀ x ∈ xs, lvl x = 0) → lvl rel ≠ 0 →
      (button_block_run byte lvl 0 (xs.take 4)).2 = [] ∧
      (∀ m, 5 ≤ m → (button_block_run byte lvl 0 (xs.take m)).2
        = [Call.send (xs.getD 4 rel).sock byte]) ∧
      (button_block_run byte lvl 0 (xs ++ [rel])).2 = [Call.send (xs.getD 4 rel).sock byte] := by
    intro byte lvl hp hr
    have h4 : 0 ≤ (xs.getD 4 rel).sock := by
      have hlt : 4 < xs.length := by omega
      rw [List.getD_eq_getElem _ _ hlt]
      exact hsock _ (List.getElem_mem _)
    have hfire : ∀ ys : List Sample, 5 ≤ ys.length → (∀ y ∈ ys, lvl y = 0) →
        ys.getD 4 rel = xs.getD 4 rel →
        button_block_run byte lvl 0 ys = (-1, [Call.send (xs.getD 4 rel).sock byte]) := by
      intro ys hl hpy he
      have := block_run_fire byte lvl rel ys 0 (by omega) (by omega) hpy
      simp only [Nat.cast_zero, Nat.sub_zero, he] at this
      rw [this, if_pos h4]
    refine ⟨?_, ?_, ?_⟩
    · have := block_run_counting byte lvl (xs.take 4) 0 (by simp)
        (fun x hx => hp x (List.mem_of_mem_take hx))
      simp only [Nat.cast_zero] at this
      rw [this]
    · intro m hm
      rw [hfire (xs.take m) (by simp; omega) (fun x hx => hp x (List.mem_of_mem_take hx))]
      have hlt : 4 < xs.length := by omega
      have hlt2 : 4 < (xs.take m).length := by simp; omega
      rw [List.getD_eq_getElem _ _ hlt, List.getD_eq_getElem _ _ hlt2]
      simp
    · rw [block_run_append, hfire xs (by omega) hp rfl]
      simp [button_block_run, button_block_released _ _ _ _ hr]
  constructor
  · intro h0 hp hr
    have k := key CHAR_0 Sample.btn1 hp hr
    simp only [(run_btn1 _ c).2, h0]
    refine ⟨k.1, fun m hm => k.2.1 m hm, k.2.2⟩
  · intro h0 hp hr
    have k := key CHAR_1 Sample.btn2 hp hr
    simp only [(run_btn2 _ c).2, h0]
    refine ⟨k.1, fun m hm => k.2.1 m hm, k.2.2⟩

/-- Witness for C1: button 1 held for 6 ticks on socket 3, then released. -/
theorem long_press_sends_once_witness :
    sendsOf CHAR_0 (button_task_run ⟨0, 0⟩
      ([⟨3, 0, 1⟩, ⟨3, 0, 1⟩, ⟨3, 0, 1⟩, ⟨3, 0, 1⟩, ⟨3, 0, 1⟩, ⟨3, 0, 1⟩] ++ [⟨3, 1, 1⟩])).2
      = [Call.send 3 CHAR_0] :=
  ((long_press_sends_once 6 (by decide)
    [⟨3, 0, 1⟩, ⟨3, 0, 1⟩, ⟨3, 0, 1⟩, ⟨3, 0, 1⟩, ⟨3, 0, 1⟩, ⟨3, 0, 1⟩] ⟨3, 1, 1⟩ ⟨0, 0⟩ rfl
    (by decide)).1 rfl (by decide) (by decide)).2.2

/-- C2: for either button, starting idle (counter 0), `n < 5` consecutive pressed samples
followed by a released sample produce no send of the button's byte, whatever the socket
values are; the counter stands at `n` after the pressed samples and at 0 after the release. -/
theorem short_press_sends_nothing (n : Nat) (hn : n < 5) (xs : List Sample) (rel : Sample)
    (c : Counters) (hlen : xs.length = n) :
    (c.btn1_cnt = 0 → (∀ x ∈ xs, x.btn1 = 0) → rel.btn1 ≠ 0 →
      sendsOf CHAR_0 (button_task_run c (xs ++ [rel])).2 = [] ∧
      (button_task_run c xs).1.btn1_cnt = n ∧
      (button_task_run c (xs ++ [rel])).1.btn1_cnt = 0) ∧
    (c.btn2_cnt = 0 → (∀ x ∈ xs, x.btn2 = 0) → rel.btn2 ≠ 0 →
      sendsOf CHAR_1 (button_task_run c (xs ++ [rel])).2 = [] ∧
      (button_task_run c xs).1.btn2_cnt = n ∧
      (button_task_run c (xs ++ [rel])).1.btn2_cnt = 0) := by
  have key : ∀ (byte : Nat) (lvl : Sample → Int), (∀ x ∈ xs, lvl x = 0) → lvl rel ≠ 0 →
      (button_block_run byte lvl 0 (xs ++ [rel])).2 = [] ∧
      (button_block_run byte lvl 0 xs).1 = n ∧
      (button_block_run byte lvl 0 (xs ++ [rel])).1 = 0 := by
    intro byte lvl hp hr
    have h := block_run_counting byte lvl xs 0 (by omega) hp
    simp only [Nat.cast_zero, zero_add, hlen] at h
    rw [block_run_append, h]
    simp [button_block_run, button_block_released _ _ _ _ hr]
  constructor
  · intro h0 hp hr
    have k := key CHAR_0 Sample.btn1 hp hr
    simp only [(run_btn1 _ c).2, (run_btn1 _ c).1, h0]
    exact k
  · intro h0 hp hr
    have k := key CHAR_1 Sample.btn2 hp hr
    simp only [(run_btn2 _ c).2, (run_btn2 _ c).1, h0]
    exact k

/-- Witness for C2: button 2 held for 4 ticks on socket 3, then released. -/
theorem short_press_sends_nothing_witness :
    sendsOf CHAR_1 (button_task_run ⟨0, 0⟩
      ([⟨3, 1, 0⟩, ⟨3, 1, 0⟩, ⟨3, 1, 0⟩, ⟨3, 1, 0⟩] ++ [⟨3, 1, 1⟩])).2 = [] ∧
    (button_task_run ⟨0, 0⟩ [⟨3, 1, 0⟩, ⟨3, 1, 0⟩, ⟨3, 1, 0⟩, ⟨3, 1, 0⟩]).1.btn2_cnt = (4 : Nat) ∧
    (button_task_run ⟨0, 0⟩
      ([⟨3, 1, 0⟩, ⟨3, 1, 0⟩, ⟨3, 1, 0⟩, ⟨3, 1, 0⟩] ++ [⟨3, 1, 1⟩])).1.btn2_cnt = 0 :=
  (short_press_sends_nothing 4 (by decide)
    [⟨3, 1, 0⟩, ⟨3, 1, 0⟩, ⟨3, 1, 0⟩, ⟨3, 1, 0⟩] ⟨3, 1, 1⟩ ⟨0, 0⟩ rfl).2 rfl (by decide)
    (by decide)

/-- C3: while the published socket is negative, for every pair of counters and every
sequence of raw levels on both buttons, the polling loop makes no call at all (no send);
the counters evolve as they do under any other socket values, valid ones included; and a
counter at 4 still goes to the armed value -1 on the next pressed sample. -/
theorem no_socket_no_send (c : Counters) (xs : List Sample) (h : ∀ x ∈ xs, x.sock < 0) :
    (button_task_run c xs).2 = [] ∧
    (∀ ys : List Sample,
      ys.map (fun y => (y.btn1, y.btn2)) = xs.map (fun x => (x.btn1, x.btn2)) →
      (button_task_run c ys).1 = (button_task_run c xs).1) ∧
    (∀ x : Sample, x.sock < 0 →
      (button_task_tick x c).2 = [] ∧
      (x.btn1 = 0 → c.btn1_cnt = 4 → (button_task_tick x c).1.btn1_cnt = -1) ∧
      (x.btn2 = 0 → c.btn2_cnt = 4 → (button_task_tick x c).1.btn2_cnt = -1)) := by
  refine ⟨button_task_run_no_sock xs c h, fun ys hys => button_task_run_cnt_sock xs ys c hys, ?_⟩
  intro x hx
  refine ⟨?_, ?_, ?_⟩
  · simp only [button_task_tick, button_block_no_sock _ _ _ _ hx, List.append_nil]
  · intro hl hc
    simp only [button_task_tick, hl, hc, button_block_fire]
  · intro hl hc
    simp only [button_task_tick, hl, hc, button_block_fire]

/-- Witness for C3: both buttons held for 5 ticks while `sock = -1`: nothing is sent and
both counters are armed, exactly as with socket 3. -/
theorem no_socket_no_send_witness :
    (button_task_run ⟨0, 0⟩
      [⟨-1, 0, 0⟩, ⟨-1, 0, 0⟩, ⟨-1, 0, 0⟩, ⟨-1, 0, 0⟩, ⟨-1, 0, 0⟩]).2 = [] ∧
    (button_task_run ⟨0, 0⟩ [⟨3, 0, 0⟩, ⟨3, 0, 0⟩, ⟨3, 0, 0⟩, ⟨3, 0, 0⟩, ⟨3, 0, 0⟩]).1
      = (button_task_run ⟨0, 0⟩
          [⟨-1, 0, 0⟩, ⟨-1, 0, 0⟩, ⟨-1, 0, 0⟩, ⟨-1, 0, 0⟩, ⟨-1, 0, 0⟩]).1 :=
  ⟨(no_socket_no_send ⟨0, 0⟩
      [⟨-1, 0, 0⟩, ⟨-1, 0, 0⟩, ⟨-1, 0, 0⟩, ⟨-1, 0, 0⟩, ⟨-1, 0, 0⟩] (by decide)).1,
    (no_socket_no_send ⟨0, 0⟩
      [⟨-1, 0, 0⟩, ⟨-1, 0, 0⟩, ⟨-1, 0, 0⟩, ⟨-1, 0, 0⟩, ⟨-1, 0, 0⟩] (by decide)).2.1
      [⟨3, 0, 0⟩, ⟨3, 0, 0⟩, ⟨3, 0, 0⟩, ⟨3, 0, 0⟩, ⟨3, 0, 0⟩] rfl⟩

/-- C10: for every finite sequence of samples, a button that starts at counter 0 has its
counter in -1 .. 4 after every tick, and with a valid socket on every sample the number of
bytes it sends equals the number of maximal runs of consecutive pressed samples of length
at least 5; the counter and the sends of one button are the same for any other sample
sequence that agrees on the socket and on that button's levels, whatever the other button's
levels and counter are. -/
theorem button_counter_and_sends (xs : List Sample) (c : Counters) :
    (c.btn1_cnt = 0 →
      (∀ k, -1 ≤ (button_task_run c (xs.take k)).1.btn1_cnt ∧
        (button_task_run c (xs.take k)).1.btn1_cnt ≤ 4) ∧
      ((∀ x ∈ xs, 0 ≤ x.sock) →
        (sendsOf CHAR_0 (button_task_run c xs).2).length = longPresses1 xs)) ∧
    (c.btn2_cnt = 0 →
      (∀ k, -1 ≤ (button_task_run c (xs.take k)).1.btn2_cnt ∧
        (button_task_run c (xs.take k)).1.btn2_cnt ≤ 4) ∧
      ((∀ x ∈ xs, 0 ≤ x.sock) →
        (sendsOf CHAR_1 (button_task_run c xs).2).length = longPresses2 xs)) ∧
    (∀ (ys : List Sample) (c2 : Counters),
      ys.map (fun y => (y.sock, y.btn1)) = xs.map (fun x => (x.sock, x.btn1)) →
      c2.btn1_cnt = c.btn1_cnt →
      (button_task_run c2 ys).1.btn1_cnt = (button_task_run c xs).1.btn1_cnt ∧
      sendsOf CHAR_0 (button_task_run c2 ys).2 = sendsOf CHAR_0 (button_task_run c xs).2) ∧
    (∀ (ys : List Sample) (c2 : Counters),
      ys.map (fun y => (y.sock, y.btn2)) = xs.map (fun x => (x.sock, x.btn2)) →
      c2.btn2_cnt = c.btn2_cnt →
      (button_task_run c2 ys).1.btn2_cnt = (button_task_run c xs).1.btn2_cnt ∧
      sendsOf CHAR_1 (button_task_run c2 ys).2 = sendsOf CHAR_1 (button_task_run c xs).2) := by
  refine ⟨?_, ?_, ?_, ?_⟩
  · intro h0
    refine ⟨fun k => ?_, fun hs => ?_⟩
    · rw [(run_btn1 _ c).1, h0]
      exact block_run_range CHAR_0 Sample.btn1 (xs.take k) 0 (by decide) (by decide)
    · rw [(run_btn1 _ c).2, h0]
      have := block_run_count CHAR_0 Sample.btn1 xs 0 0 (Or.inl ⟨rfl, by decide⟩) hs
      simpa [longPresses1, runLengths] using this
  · intro h0
    refine ⟨fun k => ?_, fun hs => ?_⟩
    · rw [(run_btn2 _ c).1, h0]
      exact block_run_range CHAR_1 Sample.btn2 (xs.take k) 0 (by decide) (by decide)
    · rw [(run_btn2 _ c).2, h0]
      have := block_run_count CHAR_1 Sample.btn2 xs 0 0 (Or.inl ⟨rfl, by decide⟩) hs
      simpa [longPresses2, runLengths] using this
  · intro ys c2 hys hc
    rw [(run_btn1 _ c).1, (run_btn1 _ c).2, (run_btn1 _ c2).1, (run_btn1 _ c2).2, hc,
      block_run_congr CHAR_0 Sample.btn1 Sample.btn1 ys xs _ hys]
    exact ⟨rfl, rfl⟩
  · intro ys c2 hys hc
    rw [(run_btn2 _ c).1, (run_btn2 _ c).2, (run_btn2 _ c2).1, (run_btn2 _ c2).2, hc,
      block_run_congr CHAR_1 Sample.btn2 Sample.btn2 ys xs _ hys]
    exact ⟨rfl, rfl⟩

/-- Witness for C10: button 1 is held for 5 ticks, bounces for 2, and is held again for 6
ticks up to the end of the sequence, on socket 3: two long runs, two bytes. -/
theorem button_counter_and_sends_witness :
    (sendsOf CHAR_0 (button_task_run ⟨0, 0⟩
      [⟨3, 0, 1⟩, ⟨3, 0, 1⟩, ⟨3, 0, 1⟩, ⟨3, 0, 1⟩, ⟨3, 0, 1⟩, ⟨3, 1, 1⟩, ⟨3, 0, 0⟩, ⟨3, 0, 0⟩,
        ⟨3, 1, 0⟩, ⟨3, 0, 0⟩, ⟨3, 0, 0⟩, ⟨3, 0, 0⟩, ⟨3, 0, 0⟩, ⟨3, 0, 0⟩, ⟨3, 0, 0⟩]).2).length
      = longPresses1
      [⟨3, 0, 1⟩, ⟨3, 0, 1⟩, ⟨3, 0, 1⟩, ⟨3, 0, 1⟩, ⟨3, 0, 1⟩, ⟨3, 1, 1⟩, ⟨3, 0, 0⟩, ⟨3, 0, 0⟩,
        ⟨3, 1, 0⟩, ⟨3, 0, 0⟩, ⟨3, 0, 0⟩, ⟨3, 0, 0⟩, ⟨3, 0, 0⟩, ⟨3, 0, 0⟩, ⟨3, 0, 0⟩] ∧
    longPresses1
      [⟨3, 0, 1⟩, ⟨3, 0, 1⟩, ⟨3, 0, 1⟩, ⟨3, 0, 1⟩, ⟨3, 0, 1⟩, ⟨3, 1, 1⟩, ⟨3, 0, 0⟩, ⟨3, 0, 0⟩,
        ⟨3, 1, 0⟩, ⟨3, 0, 0⟩, ⟨3, 0, 0⟩, ⟨3, 0, 0⟩, ⟨3, 0, 0⟩, ⟨3, 0, 0⟩, ⟨3, 0, 0⟩] = 2 :=
  ⟨((button_counter_and_sends
      [⟨3, 0, 1⟩, ⟨3, 0, 1⟩, ⟨3, 0, 1⟩, ⟨3, 0, 1⟩, ⟨3, 0, 1⟩, ⟨3, 1, 1⟩, ⟨3, 0, 0⟩, ⟨3, 0, 0⟩,
        ⟨3, 1, 0⟩, ⟨3, 0, 0⟩, ⟨3, 0, 0⟩, ⟨3, 0, 0⟩, ⟨3, 0, 0⟩, ⟨3, 0, 0⟩, ⟨3, 0, 0⟩]
      ⟨0, 0⟩).1 rfl).2 (by decide), by decide⟩

/-! ## `data_received` -/

/-- After an empty chunk the first byte of the buffer is the terminator written by line 168. -/
theorem store_chunk_empty (rx_buffer : List Nat) :
    byteAt (store_chunk rx_buffer 0 []) 0 = 0 := by
  cases rx_buffer <;> simp [store_chunk, byteAt]

/-- After a non-empty chunk the first byte of the buffer is the first byte received. -/
theorem store_chunk_first (rx_buffer : List Nat) (b : Nat) (rest : List Nat) :
    byteAt (store_chunk rx_buffer ((b :: rest).length : Nat) (b :: rest)) 0 = b := by
  simp [store_chunk, byteAt]

/-- C4: for every buffer and every prior pin state, after `data_received` the red and the
yellow LED are determined by the buffer's first byte alone: `'0'` gives red on and yellow
off, `'1'` gives yellow on and red off, any other first byte gives both off (the terminator
0 of an empty chunk included); every other pin, green and blue among them, keeps its
level. -/
theorem data_received_leds (rx_buf : List Nat) (g : Pins) :
    (byteAt rx_buf 0 = CHAR_0 →
      data_received rx_buf g GPIO_LED_RED = 1 ∧ data_received rx_buf g GPIO_LED_YEL = 0) ∧
    (byteAt rx_buf 0 = CHAR_1 →
      data_received rx_buf g GPIO_LED_YEL = 1 ∧ data_received rx_buf g GPIO_LED_RED = 0) ∧
    (byteAt rx_buf 0 ≠ CHAR_0 → byteAt rx_buf 0 ≠ CHAR_1 →
      data_received rx_buf g GPIO_LED_RED = 0 ∧ data_received rx_buf g GPIO_LED_YEL = 0) ∧
    (∀ (first : Nat) (rest rest2 : List Nat) (g2 : Pins),
      data_received (first :: rest) g GPIO_LED_RED
        = data_received (first :: rest2) g2 GPIO_LED_RED ∧
      data_received (first :: rest) g GPIO_LED_YEL
        = data_received (first :: rest2) g2 GPIO_LED_YEL) ∧
    (∀ rx_buffer : List Nat,
      data_received (store_chunk rx_buffer 0 []) g GPIO_LED_RED = 0 ∧
      data_received (store_chunk rx_buffer 0 []) g GPIO_LED_YEL = 0) ∧
    data_received rx_buf g GPIO_LED_GREEN = g GPIO_LED_GREEN ∧
    data_received rx_buf g GPIO_LED_BLUE = g GPIO_LED_BLUE ∧
    (∀ pin, pin ≠ GPIO_LED_RED → pin ≠ GPIO_LED_YEL → data_received rx_buf g pin = g pin) := by
  refine ⟨?_, ?_, ?_, ?_, ?_, ?_, ?_, ?_⟩
  · intro h
    simp [data_received, h, gpio_set_level, GPIO_LED_RED, GPIO_LED_YEL, CHAR_0, CHAR_1]
  · intro h
    simp [data_received, h, gpio_set_level, GPIO_LED_RED, GPIO_LED_YEL, CHAR_0, CHAR_1]
  · intro h0 h1
    simp [data_received, h0, h1, gpio_set_level, GPIO_LED_RED, GPIO_LED_YEL]
  · intro first rest rest2 g2
    simp only [data_received, byteAt, List.getD_cons_zero]
    constructor <;> split_ifs <;>
      simp_all [gpio_set_level, GPIO_LED_RED, GPIO_LED_YEL, CHAR_0, CHAR_1]
  · intro rx_buffer
    simp [data_received, store_chunk_empty, gpio_set_level, GPIO_LED_RED, GPIO_LED_YEL, CHAR_0,
      CHAR_1]
  · simp only [data_received]
    split_ifs <;> simp [gpio_set_level, GPIO_LED_RED, GPIO_LED_YEL, GPIO_LED_GREEN]
  · simp only [data_received]
    split_ifs <;> simp [gpio_set_level, GPIO_LED_RED, GPIO_LED_YEL, GPIO_LED_BLUE]
  · intro pin hr hy
    simp only [data_received]
    split_ifs <;> simp [gpio_set_level, hr, hy]

/-- Witness for C4: the chunk `"10x"` arriving while red and green are lit sets yellow,
clears red and leaves green lit. -/
theorem data_received_leds_witness :
    data_received [49, 48, 120] (fun p => if p = 22 ∨ p = 17 then 1 else 0) GPIO_LED_YEL = 1 ∧
    data_received [49, 48, 120] (fun p => if p = 22 ∨ p = 17 then 1 else 0) GPIO_LED_RED = 0 ∧
    data_received [49, 48, 120] (fun p => if p = 22 ∨ p = 17 then 1 else 0) GPIO_LED_GREEN = 1 :=
  ⟨((data_received_leds [49, 48, 120] (fun p => if p = 22 ∨ p = 17 then 1 else 0)).2.1 rfl).1,
    ((data_received_leds [49, 48, 120] (fun p => if p = 22 ∨ p = 17 then 1 else 0)).2.1 rfl).2,
    (data_received_leds [49, 48, 120] (fun p => if p = 22 ∨ p = 17 then 1 else 0)).2.2.2.2.2.1⟩

/-! ## `event_handler` and the address flags -/

theorem testBit_flags_const :
    Nat.testBit 1 0 = true ∧ Nat.testBit 1 1 = false ∧ Nat.testBit 2 0 = false ∧
      Nat.testBit 2 1 = true := by decide

theorem ipv4_setBits (group bits : Nat) :
    ipv4 (xEventGroupSetBits group bits) = (ipv4 group || bits.testBit 0) := by
  unfold ipv4 xEventGroupSetBits
  exact Nat.testBit_or _ _ _

theorem ipv6_setBits (group bits : Nat) :
    ipv6 (xEventGroupSetBits group bits) = (ipv6 group || bits.testBit 1) := by
  unfold ipv6 xEventGroupSetBits
  exact Nat.testBit_or _ _ _

theorem ipv4_clearBits (group bits : Nat) :
    ipv4 (xEventGroupClearBits group bits) = (ipv4 group && !bits.testBit 0) := by
  unfold ipv4 xEventGroupClearBits
  rw [Nat.testBit_xor, Nat.testBit_and]
  cases group.testBit 0 <;> cases bits.testBit 0 <;> rfl

theorem ipv6_clearBits (group bits : Nat) :
    ipv6 (xEventGroupClearBits group bits) = (ipv6 group && !bits.testBit 1) := by
  unfold ipv6 xEventGroupClearBits
  rw [Nat.testBit_xor, Nat.testBit_and]
  cases group.testBit 1 <;> cases bits.testBit 1 <;> rfl

/-- The wait condition of `wait_for_ip` holds exactly when both address flags are set. -/
theorem allBitsSet_eq (group : Nat) : allBitsSet group = (ipv4 group && ipv6 group) := by
  have e3 : (IPV4_GOTIP_BIT ||| IPV6_GOTIP_BIT) = 2 ^ 2 - 1 := by decide
  have h0 : group.testBit 0 = decide (group / 2 ^ 0 % 2 = 1) := Nat.testBit_to_div_mod
  have h1 : group.testBit 1 = decide (group / 2 ^ 1 % 2 = 1) := Nat.testBit_to_div_mod
  unfold allBitsSet ipv4 ipv6
  rw [e3, Nat.and_pow_two_sub_one_eq_mod, h0, h1]
  by_cases a : group / 2 ^ 0 % 2 = 1 <;> by_cases b : group / 2 ^ 1 % 2 = 1 <;>
    simp only [a, b, decide_True, decide_False, Bool.and_self, Bool.and_false, Bool.false_and,
      beq_iff_eq, beq_eq_false_iff_ne] <;> simp at a b ⊢ <;> omega

/-- C6: for every value of the event group, `event_handler` acts on the two address flags
as follows: `STA_GOT_IP` sets ipv4 and leaves ipv6; `AP_STA_GOT_IP6` sets ipv6 and leaves
ipv4; `STA_DISCONNECTED` clears both; `STA_START`, `STA_CONNECTED` and every other event
leave the event group as it is; and the handler returns `ESP_OK` for every event. -/
theorem event_handler_flags (group : Nat) :
    (ipv4 (event_handler group .SYSTEM_EVENT_STA_GOT_IP).1 = true ∧
      ipv6 (event_handler group .SYSTEM_EVENT_STA_GOT_IP).1 = ipv6 group) ∧
    (ipv6 (event_handler group .SYSTEM_EVENT_AP_STA_GOT_IP6).1 = true ∧
      ipv4 (event_handler group .SYSTEM_EVENT_AP_STA_GOT_IP6).1 = ipv4 group) ∧
    (ipv4 (event_handler group .SYSTEM_EVENT_STA_DISCONNECTED).1 = false ∧
      ipv6 (event_handler group .SYSTEM_EVENT_STA_DISCONNECTED).1 = false) ∧
    (event_handler group .SYSTEM_EVENT_STA_START).1 = group ∧
    (event_handler group .SYSTEM_EVENT_STA_CONNECTED).1 = group ∧
    (∀ id, (event_handler group (.other id)).1 = group) ∧
    (∀ event_id, (event_handler group event_id).2.2 = ESP_OK) := by
  obtain ⟨c10, c11, c20, c21⟩ := testBit_flags_const
  refine ⟨⟨?_, ?_⟩, ⟨?_, ?_⟩, ⟨?_, ?_⟩, rfl, rfl, fun _ => rfl, ?_⟩
  · simp only [event_handler, ipv4_setBits, IPV4_GOTIP_BIT, BIT0, c10, Bool.or_true]
  · simp only [event_handler, ipv6_setBits, IPV4_GOTIP_BIT, BIT0, c11, Bool.or_false]
  · simp only [event_handler, ipv6_setBits, IPV6_GOTIP_BIT, BIT1, c21, Bool.or_true]
  · simp only [event_handler, ipv4_setBits, IPV6_GOTIP_BIT, BIT1, c20, Bool.or_false]
  · simp only [event_handler, ipv4_clearBits, IPV4_GOTIP_BIT, IPV6_GOTIP_BIT, BIT0, BIT1, c10,
      c20, Bool.not_true, Bool.not_false, Bool.and_false, Bool.and_true]
  · simp only [event_handler, ipv6_clearBits, IPV4_GOTIP_BIT, IPV6_GOTIP_BIT, BIT0, BIT1, c11,
      c21, Bool.not_true, Bool.not_false, Bool.and_false, Bool.and_true]
  · intro event_id
    cases event_id <;> rfl

/-! ## The interleaved system -/

theorem run_append (s : State) (a b : List Input) :
    run s (a ++ b) = ((run (run s a).1 b).1, (run s a).2 ++ (run (run s a).1 b).2) := by
  induction a generalizing s with
  | nil => simp [run]
  | cons i a ih => simp [run, ih, List.append_assoc]

theorem run_concat (s : State) (a : List Input) (i : Input) :
    run s (a ++ [i]) = ((step (run s a).1 i).1, (run s a).2 ++ (step (run s a).1 i).2) := by
  rw [run_append]
  simp [run]

/-- The callback makes no call of the socket life cycle. -/
theorem event_handler_calls (group : Nat) (event_id : system_event_id_t) :
    ∀ c ∈ (event_handler group event_id).2.1, isSessionCall c = false ∧ isSend c = false := by
  cases event_id <;> simp [event_handler, isSessionCall, isSend]

theorem button_block_calls (byte : Nat) (sock level cnt : Int) :
    ∀ c ∈ (button_block byte sock level cnt).2, isSessionCall c = false := by
  simp only [button_block]
  split_ifs <;> simp [isSessionCall]

/-- The button task makes no call of the socket life cycle and leaves the session alone. -/
theorem button_task_frame (s : State) (btn1 btn2 : Int) :
    (button_task s btn1 btn2).1.pc = s.pc ∧ (button_task s btn1 btn2).1.sock = s.sock ∧
    (button_task s btn1 btn2).1.wifi_event_group = s.wifi_event_group ∧
    ∀ c ∈ (button_task s btn1 btn2).2, isSessionCall c = false := by
  unfold button_task
  split
  · simp [isSessionCall]
  · simp [isSessionCall]
  · simp [isSessionCall]
  · simp [isSessionCall]
  · refine ⟨rfl, rfl, rfl, ?_⟩
    intro c hc
    simp only [button_task_tick, List.mem_append, List.mem_singleton] at hc
    rcases hc with (hc | hc) | hc
    · exact button_block_calls _ _ _ _ c hc
    · exact button_block_calls _ _ _ _ c hc
    · subst hc; rfl

/-- Before `wait_for_ip` has returned no step of the system makes a call of the socket
life cycle. -/
theorem step_waiting_calls (s : State) (i : Input) (h : s.pc = .entry ∨ s.pc = .blocked) :
    ∀ c ∈ (step s i).2, isSessionCall c = false := by
  cases i with
  | event e => exact fun c hc => (event_handler_calls _ e c hc).1
  | task r =>
    simp only [step, tcp_client_task]
    rcases h with h | h <;> rw [h]
    · split_ifs <;> simp [isSessionCall]
    · simp
  | button b1 b2 => exact (button_task_frame s b1 b2).2.2.2

/-- The task leaves the waiting states only in a state whose event group has both bits. -/
theorem step_leaves_waiting (s : State) (i : Input) (h : s.pc = .entry ∨ s.pc = .blocked) :
    ((step s i).1.pc = .entry ∨ (step s i).1.pc = .blocked) ∨
      (allBitsSet s.wifi_event_group = true ∨ allBitsSet (step s i).1.wifi_event_group = true) := by
  cases i with
  | event e =>
    simp only [step]
    rcases h with h | h
    · left; left; simp [h]
    · by_cases hb : allBitsSet (event_handler s.wifi_event_group e).1 = true
      · right; right; exact hb
      · left; right; simp [h, hb]
  | task r =>
    simp only [step, tcp_client_task]
    rcases h with h | h <;> rw [h]
    · by_cases hb : allBitsSet s.wifi_event_group = true
      · right; left; exact hb
      · left; right; simp [hb]
    · left; right; exact h
  | button b1 b2 =>
    left
    simp only [step]
    rw [(button_task_frame s b1 b2).1]
    exact h

/-- A call to `socket` or `connect` is made only by a task that has left `wait_for_ip`. -/
theorem step_session_call_pc (s : State) (i : Input) (c : Call) (hc : c ∈ (step s i).2)
    (hs : isSessionCall c = true) : ¬ (s.pc = .entry ∨ s.pc = .blocked) := by
  intro h
  have := step_waiting_calls s i h c hc
  rw [this] at hs
  exact Bool.false_ne_true hs

/-- Along every execution: either the task is still waiting and no call of the socket life
cycle has been made, or an earlier state had both address flags set before any such call. -/
theorem waiting_or_addresses_seen (s0 : State) (h0 : s0.pc = .entry) (is : List Input) :
    (((run s0 is).1.pc = .entry ∨ (run s0 is).1.pc = .blocked) ∧
      ∀ c ∈ (run s0 is).2, isSessionCall c = false) ∨
    ∃ pre post, is = pre ++ post ∧
      ipv4 (run s0 pre).1.wifi_event_group = true ∧
      ipv6 (run s0 pre).1.wifi_event_group = true ∧
      ∀ c ∈ (run s0 pre).2, isSessionCall c = false := by
  induction is using List.reverseRecOn with
  | nil => left; exact ⟨Or.inl h0, by simp [run]⟩
  | append_singleton is i ih =>
    rcases ih with ⟨hpc, hcalls⟩ | ⟨pre, post, he, h4, h6, hc⟩
    · have hnew : ∀ c ∈ (run s0 (is ++ [i])).2, isSessionCall c = false := by
        intro c hc
        rw [run_concat] at hc
        rcases List.mem_append.1 hc with hc | hc
        · exact hcalls c hc
        · exact step_waiting_calls _ i hpc c hc
      rcases step_leaves_waiting (run s0 is).1 i hpc with hw | hb | hb
      · left
        rw [run_concat]
        exact ⟨hw, by rw [← run_concat]; exact hnew⟩
      · right
        rw [allBitsSet_eq, Bool.and_eq_true] at hb
        exact ⟨is, [i], rfl, hb.1, hb.2, hcalls⟩
      · right
        have hb2 : allBitsSet (run s0 (is ++ [i])).1.wifi_event_group = true := by
          rw [run_concat]; exact hb
        rw [allBitsSet_eq, Bool.and_eq_true] at hb2
        exact ⟨is ++ [i], [], by simp, hb2.1, hb2.2, hnew⟩
    · right
      exact ⟨pre, post ++ [i], by rw [he, List.append_assoc], h4, h6, hc⟩

/-- C5: in every execution of the interleaved system from the initial state, whenever a
step calls `socket` or `connect`, the inputs before that step split at an earlier state in
which both address flags were set and before which no call of the socket life cycle had
been made; this holds for every order of events, the two address events included. The
first call of the task is the wait on both bits. -/
theorem first_connection_after_addresses (rx_buffer : List Nat) (pins : Pins)
    (is : List Input) (i : Input) (c : Call)
    (hc : c ∈ (step (run (init rx_buffer pins) is).1 i).2)
    (hs : c = Call.socket ∨ ∃ fd, c = Call.connect fd HOST_IP_ADDR PORT) :
    (∃ pre post, is = pre ++ post ∧
      ipv4 (run (init rx_buffer pins) pre).1.wifi_event_group = true ∧
      ipv6 (run (init rx_buffer pins) pre).1.wifi_event_group = true ∧
      ∀ c2 ∈ (run (init rx_buffer pins) pre).2, isSessionCall c2 = false) ∧
    (∀ r, (tcp_client_task (init rx_buffer pins) r).2
      = [Call.xEventGroupWaitBits (IPV4_GOTIP_BIT ||| IPV6_GOTIP_BIT)]) := by
  have hsess : isSessionCall c = true := by
    rcases hs with h | ⟨fd, h⟩ <;> subst h <;> rfl
  have hpc := step_session_call_pc _ i c hc hsess
  refine ⟨?_, fun r => ?_⟩
  swap
  · simp only [tcp_client_task, init, wait_for_ip_bits]
    split_ifs <;> rfl
  rcases waiting_or_addresses_seen (init rx_buffer pins) rfl is with ⟨h, _⟩ | h
  · exact absurd h hpc
  · exact h

/-- Witness for C5: the IPv6 address arrives before the IPv4 address, the wait returns and
the task calls `socket`. -/
theorem first_connection_after_addresses_witness :
    ∃ pre post,
      [Input.event .SYSTEM_EVENT_AP_STA_GOT_IP6, .event .SYSTEM_EVENT_STA_GOT_IP,
        .task ⟨0, []⟩] = pre ++ post ∧
      ipv4 (run (init [] (fun _ => 0)) pre).1.wifi_event_group = true ∧
      ipv6 (run (init [] (fun _ => 0)) pre).1.wifi_event_group = true ∧
      ∀ c2 ∈ (run (init [] (fun _ => 0)) pre).2, isSessionCall c2 = false :=
  (first_connection_after_addresses [] (fun _ => 0)
    [.event .SYSTEM_EVENT_AP_STA_GOT_IP6, .event .SYSTEM_EVENT_STA_GOT_IP, .task ⟨0, []⟩]
    (.task ⟨3, []⟩) Call.socket (by decide) (Or.inl rfl)).1

/-! ## The session loop -/

theorem step_deleted (s : State) (i : Input) (h : s.pc = .deleted) :
    (step s i).1.pc = .deleted ∧ (step s i).1.sock = s.sock ∧
    ∀ c ∈ (step s i).2, isSessionCall c = false := by
  cases i with
  | event e =>
    refine ⟨by simp [step, h], rfl, fun c hc => (event_handler_calls _ e c hc).1⟩
  | task r =>
    simp only [step, tcp_client_task, h]
    simp [h]
  | button b1 b2 =>
    have hf := button_task_frame s b1 b2
    exact ⟨by simp only [step]; rw [hf.1]; exact h, hf.2.1, hf.2.2.2⟩

/-- A deleted task stays deleted: the handle keeps its value and no call of the socket
life cycle is made, whatever the environment does. -/
theorem run_deleted (is : List Input) (s : State) (h : s.pc = .deleted) :
    (run s is).1.pc = .deleted ∧ (run s is).1.sock = s.sock ∧
    ∀ c ∈ (run s is).2, isSessionCall c = false := by
  induction is generalizing s with
  | nil => exact ⟨h, rfl, by simp [run]⟩
  | cons i is ih =>
    have hs := step_deleted s i h
    have ih2 := ih (step s i).1 hs.1
    refine ⟨ih2.1, by simp only [run]; rw [ih2.2.1, hs.2.1], ?_⟩
    intro c hc
    simp only [run, List.mem_append] at hc
    rcases hc with hc | hc
    · exact hs.2.2 c hc
    · exact ih2.2.2 c hc

/-- C7: if `socket` returns a negative value, or `connect` returns a non-zero value, the
task leaves the outer loop and deletes itself; from then on, for every later sequence of
events, task steps and button steps, the task stays deleted and no `socket`, `connect`,
`recv`, `shutdown` or `close` call is made. -/
theorem failure_ends_session (s : State) (r : Resp)
    (h : (s.pc = .at_socket ∧ r.ret < 0) ∨ (s.pc = .at_connect ∧ r.ret ≠ 0)) :
    (step s (.task r)).1.pc = .deleted ∧
    (step s (.task r)).2.getLast? = some Call.vTaskDelete ∧
    ∀ later : List Input,
      (run (step s (.task r)).1 later).1.pc = .deleted ∧
      ∀ c ∈ (run (step s (.task r)).1 later).2, isSessionCall c = false := by
  have hpc : (step s (.task r)).1.pc = .deleted ∧
      (step s (.task r)).2.getLast? = some Call.vTaskDelete := by
    rcases h with ⟨hp, hr⟩ | ⟨hp, hr⟩
    · simp [step, tcp_client_task, hp, hr]
    · simp [step, tcp_client_task, hp, hr]
  refine ⟨hpc.1, hpc.2, fun later => ?_⟩
  have := run_deleted later _ hpc.1
  exact ⟨this.1, this.2.2⟩

/-- Witness for C7: `connect` fails on descriptor 3; a later address event, task steps and
a long press of button 1 bring no further call of the socket life cycle. -/
theorem failure_ends_session_witness :
    (step (run init0 scenarioSocketCreated).1 (.task ⟨-1, []⟩)).1.pc = .deleted ∧
    (step (run init0 scenarioSocketCreated).1 (.task ⟨-1, []⟩)).2.getLast?
      = some Call.vTaskDelete ∧
    ∀ later : List Input,
      (run (step (run init0 scenarioSocketCreated).1 (.task ⟨-1, []⟩)).1 later).1.pc = .deleted ∧
      ∀ c ∈ (run (step (run init0 scenarioSocketCreated).1 (.task ⟨-1, []⟩)).1 later).2,
        isSessionCall c = false :=
  failure_ends_session (run init0 scenarioSocketCreated).1 ⟨-1, []⟩
    (Or.inr ⟨by decide, by decide⟩)

/-! ## The published socket handle -/

/-- Only the `socket` call of the session task writes `sock`. -/
theorem step_sock (s : State) (i : Input) (h : (step s i).1.sock ≠ s.sock) :
    s.pc = .at_socket ∧ ∃ r, i = .task r ∧ (step s i).1.sock = r.ret := by
  cases i with
  | event e => exact absurd rfl h
  | task r =>
    rcases s with ⟨g, sock, pc, buf, pins, bpc, cnt⟩
    cases pc <;> simp only [step, tcp_client_task, after_wait] at h
    all_goals first
      | exact absurd rfl h
      | (split_ifs at h <;> exact absurd rfl h)
      | (refine ⟨rfl, r, rfl, ?_⟩; simp only [step, tcp_client_task]; split_ifs <;> rfl)
  | button b1 b2 => exact absurd (button_task_frame s b1 b2).2.1 h

theorem step_handleInv (s : State) (i : Input) (h : handleInv s) : handleInv (step s i).1 := by
  cases i with
  | event e =>
    rcases s with ⟨g, sock, pc, buf, pins, bpc, cnt⟩
    cases pc <;> simp only [step, handleInv] at h ⊢ <;> (try split_ifs) <;> simp_all
  | task r =>
    rcases s with ⟨g, sock, pc, buf, pins, bpc, cnt⟩
    cases pc <;> simp only [step, tcp_client_task, after_wait, handleInv] at h ⊢ <;>
      (try split_ifs) <;> simp_all
  | button b1 b2 =>
    have hf := button_task_frame s b1 b2
    simp only [step, handleInv, hf.1, hf.2.1]
    exact h

theorem run_handleInv (is : List Input) (s : State) (h : handleInv s) :
    handleInv (run s is).1 := by
  induction is generalizing s with
  | nil => exact h
  | cons i is ih => exact ih _ (step_handleInv s i h)

theorem init_handleInv (rx_buffer : List Nat) (pins : Pins) : handleInv (init rx_buffer pins) := by
  simp [handleInv, init]

/-- With a negative handle a step of the button task makes no `send`. -/
theorem button_task_no_send (s : State) (btn1 btn2 : Int) (h : s.sock < 0) :
    ∀ c ∈ (button_task s btn1 btn2).2, isSend c = false := by
  unfold button_task
  split
  · simp [isSend]
  · simp [isSend]
  · simp [isSend]
  · simp [isSend]
  · intro c hc
    simp only [button_task_tick, button_block_no_sock _ _ _ _ h, List.append_nil,
      List.nil_append, List.mem_singleton] at hc
    subst hc; rfl

theorem tcp_client_task_no_send (s : State) (r : Resp) :
    ∀ c ∈ (tcp_client_task s r).2, isSend c = false := by
  rcases s with ⟨g, sock, pc, buf, pins, bpc, cnt⟩
  cases pc <;> simp only [tcp_client_task] <;> (try split_ifs) <;> simp [isSend]

/-- Once the task is deleted with a negative handle, no `send` is ever made. -/
theorem run_deleted_no_send (is : List Input) (s : State) (h : s.pc = .deleted)
    (hs : s.sock < 0) : ∀ c ∈ (run s is).2, isSend c = false := by
  induction is generalizing s with
  | nil => simp [run]
  | cons i is ih =>
    have hd := step_deleted s i h
    have ih2 := ih (step s i).1 hd.1 (by rw [hd.2.1]; exact hs)
    intro c hc
    simp only [run, List.mem_append] at hc
    rcases hc with hc | hc
    · cases i with
      | event e => exact (event_handler_calls _ e c hc).2
      | task r => exact tcp_client_task_no_send s r c hc
      | button b1 b2 => exact button_task_no_send s b1 b2 hs c hc
    · exact ih2 c hc

/-- C8, the claim tested on the code: after a failed `connect` the task is deleted and no
session is established, yet `sock` still holds descriptor 3 and a long press of button 1
calls `send(3, "0")`; likewise after the `shutdown` and `close` that follow a failed
`recv`; and already between `socket` returning 3 and the result of `connect`. So the handle
is not negative in every state without an established session. -/
theorem handle_not_cleared :
    ((run init0 scenarioConnectFails).1.pc = .deleted ∧
      established (run init0 scenarioConnectFails).1 = false ∧
      (run init0 scenarioConnectFails).1.sock = 3 ∧
      Call.send 3 CHAR_0 ∈ (run (run init0 scenarioConnectFails).1 scenarioPress).2) ∧
    ((run init0 scenarioRecvFails).2.getLast? = some (Call.close 3) ∧
      established (run init0 scenarioRecvFails).1 = false ∧
      (run init0 scenarioRecvFails).1.sock = 3 ∧
      Call.send 3 CHAR_0 ∈ (run (run init0 scenarioRecvFails).1 scenarioPress).2) ∧
    ((run init0 scenarioSocketCreated).1.pc = .at_connect ∧
      established (run init0 scenarioSocketCreated).1 = false ∧
      (run init0 scenarioSocketCreated).1.sock = 3 ∧
      Call.send 3 CHAR_0 ∈ (run (run init0 scenarioSocketCreated).1 scenarioPress).2) ∧
    ¬ (∀ is : List Input, established (run init0 is).1 = false → (run init0 is).1.sock < 0) := by
  refine ⟨by decide, by decide, by decide, fun h => ?_⟩
  have := h scenarioConnectFails (by decide)
  revert this
  decide

/-- C8 as the code has it: in every reachable state, (1) while a session is established,
and already while the task stands at `connect`, the published handle is non-negative;
(2) until `wait_for_ip` has returned the handle is -1; (3) after a failed socket creation
the handle keeps the negative value `socket` returned and no `send` is made, whatever
happens later; (4) whenever the handle is negative a step of the button task makes no
`send`. -/
theorem handle_published (rx_buffer : List Nat) (pins : Pins) (is : List Input) :
    (established (run (init rx_buffer pins) is).1 = true →
      0 ≤ (run (init rx_buffer pins) is).1.sock) ∧
    ((run (init rx_buffer pins) is).1.pc = .at_connect →
      0 ≤ (run (init rx_buffer pins) is).1.sock) ∧
    ((run (init rx_buffer pins) is).1.pc = .entry ∨ (run (init rx_buffer pins) is).1.pc = .blocked
        ∨ (run (init rx_buffer pins) is).1.pc = .woken →
      (run (init rx_buffer pins) is).1.sock = -1) ∧
    (∀ r : Resp, (run (init rx_buffer pins) is).1.pc = .at_socket → r.ret < 0 →
      ∀ later : List Input,
        (run (step (run (init rx_buffer pins) is).1 (.task r)).1 later).1.sock = r.ret ∧
        ∀ c ∈ (run (step (run (init rx_buffer pins) is).1 (.task r)).1 later).2,
          isSend c = false) ∧
    ((run (init rx_buffer pins) is).1.sock < 0 →
      ∀ btn1 btn2, ∀ c ∈ (step (run (init rx_buffer pins) is).1 (.button btn1 btn2)).2,
        isSend c = false) := by
  have hinv := run_handleInv is _ (init_handleInv rx_buffer pins)
  refine ⟨?_, fun h => hinv.1 (Or.inl h), hinv.2, ?_, ?_⟩
  · intro he
    apply hinv.1
    right
    simpa [established] using he
  · intro r hp hr later
    have h1 : (step (run (init rx_buffer pins) is).1 (.task r)).1.pc = .deleted := by
      simp [step, tcp_client_task, hp, hr]
    have h2 : (step (run (init rx_buffer pins) is).1 (.task r)).1.sock = r.ret := by
      simp only [step, tcp_client_task, hp]
      split_ifs
      rfl
    have hd := run_deleted later _ h1
    refine ⟨by rw [hd.2.1, h2], ?_⟩
    exact run_deleted_no_send later _ h1 (by rw [h2]; exact hr)
  · intro hs b1 b2
    exact button_task_no_send _ b1 b2 hs

/-- Witness for C8: once `connect` has succeeded on descriptor 3 the session is established
and the handle is non-negative. -/
theorem handle_published_witness :
    0 ≤ (run (init [] (fun _ => 0)) scenarioEstablished).1.sock := by
  have e : established (run (init [] (fun _ => 0)) scenarioEstablished).1 = true := by decide
  exact (handle_published [] (fun _ => 0) scenarioEstablished).1 e

/-! ## Receive errors and reconnection -/

/-- A failed `recv` in an established session: tear-down and back to the head of the loop. -/
theorem tcp_client_task_recv_error (s : State) (r : Resp) (hpc : s.pc = .at_recv)
    (hs : 0 ≤ s.sock) (hr : r.ret < 0) :
    tcp_client_task s r = ({ s with pc := .at_socket },
      [Call.recv s.sock (RX_BUFFER_SIZE - 1), Call.shutdown s.sock, Call.close s.sock]) := by
  have hne : s.sock ≠ -1 := by omega
  simp [tcp_client_task, hpc, hr, hne]

/-- A successful `recv`: the chunk goes to `data_received` and the task stays in the loop. -/
theorem tcp_client_task_recv_data (s : State) (r : Resp) (hpc : s.pc = .at_recv)
    (hr : 0 ≤ r.ret) :
    tcp_client_task s r =
      ({ s with
          rx_buffer := store_chunk s.rx_buffer r.ret r.data
          pins := data_received (store_chunk s.rx_buffer r.ret r.data) s.pins },
        [Call.recv s.sock (RX_BUFFER_SIZE - 1), Call.vTaskDelay 10]) := by
  have hn : ¬ r.ret < 0 := by omega
  simp [tcp_client_task, hpc, hn]

/-- Storing `data` and the terminator in a buffer with room for both: the buffer then
holds the bytes of `data`, a 0, and its old contents after that. -/
theorem store_chunk_nat (data rx_buffer : List Nat) (h : data.length < rx_buffer.length) :
    (data ++ rx_buffer.drop data.length).set data.length 0
      = data ++ 0 :: rx_buffer.drop (data.length + 1) := by
  induction data generalizing rx_buffer with
  | nil =>
    cases rx_buffer with
    | nil => simp at h
    | cons b rest => simp
  | cons d ds ih =>
    cases rx_buffer with
    | nil => simp at h
    | cons b rest =>
      simp only [List.length_cons, Nat.add_lt_add_iff_right] at h
      have := ih rest h
      simp only [List.length_cons, List.drop_succ_cons, List.cons_append, List.set_cons_succ,
        this]

/-- The buffer after a `recv` that returned the number of bytes it stored, fewer than the
buffer holds. -/
theorem store_chunk_eq (rx_buffer : List Nat) (len : Int) (data : List Nat)
    (hlen : len = data.length) (h : data.length < rx_buffer.length) :
    store_chunk rx_buffer len data = data ++ 0 :: rx_buffer.drop (data.length + 1) := by
  subst hlen
  simp only [store_chunk, Int.toNat_ofNat]
  exact store_chunk_nat data rx_buffer h

/-- The first byte of the buffer after a `recv` is the first byte received, or the
terminator when nothing was received. -/
theorem store_chunk_head (rx_buffer : List Nat) (data : List Nat) :
    byteAt (store_chunk rx_buffer (data.length : Nat) data) 0 = data.headD 0 := by
  cases data with
  | nil => simpa using store_chunk_empty rx_buffer
  | cons b rest => simpa using store_chunk_first rx_buffer b rest

theorem store_chunk_length (rx_buffer : List Nat) (len : Int) (data : List Nat) :
    rx_buffer.length ≤ (store_chunk rx_buffer len data).length := by
  simp only [store_chunk, List.length_set, List.length_append, List.length_drop]
  omega

/-- No step of the system shortens the receive buffer. -/
theorem step_rx_buffer_length (s : State) (i : Input) :
    s.rx_buffer.length ≤ (step s i).1.rx_buffer.length := by
  cases i with
  | event e => exact le_refl _
  | task r =>
    rcases s with ⟨g, sock, pc, buf, pins, bpc, cnt⟩
    cases pc <;> simp only [step, tcp_client_task, after_wait] <;> (try split_ifs) <;>
      first
        | exact le_refl _
        | exact store_chunk_length _ _ _
  | button b1 b2 =>
    simp only [step]
    unfold button_task
    split <;> exact le_refl _

theorem run_rx_buffer_length (is : List Input) (s : State) :
    s.rx_buffer.length ≤ (run s is).1.rx_buffer.length := by
  induction is generalizing s with
  | nil => exact le_refl _
  | cons i is ih => exact le_trans (step_rx_buffer_length s i) (ih _)

/-- The red LED after `data_received` follows the first byte of the buffer. -/
theorem data_received_red (rx_buf : List Nat) (g : Pins) :
    data_received rx_buf g GPIO_LED_RED = (if byteAt rx_buf 0 = CHAR_0 then 1 else 0) := by
  simp only [data_received]
  split_ifs <;> simp_all [gpio_set_level, GPIO_LED_RED, GPIO_LED_YEL, CHAR_0, CHAR_1]

/-- The yellow LED after `data_received` follows the first byte of the buffer. -/
theorem data_received_yel (rx_buf : List Nat) (g : Pins) :
    data_received rx_buf g GPIO_LED_YEL = (if byteAt rx_buf 0 = CHAR_1 then 1 else 0) := by
  simp only [data_received]
  split_ifs <;> simp_all [gpio_set_level, GPIO_LED_RED, GPIO_LED_YEL, CHAR_0, CHAR_1]

theorem byteAt_chunk_head (data rest : List Nat) :
    byteAt (data ++ 0 :: rest) 0 = data.headD 0 := by
  cases data <;> simp [byteAt]

/-- C9: in every reachable state with an established session, a `recv` that returns a
negative length makes the task call `shutdown` and `close` on the socket and return to the
head of the outer loop; its next call is `socket`, with no wait on the address bits and no
delay before it, and when `socket` returns a descriptor the call after that is `connect` on
that descriptor to 192.168.1.107 port 2000 (when `socket` fails the task deletes itself
instead). A `recv` that returns a length of 0 or more keeps the task in the inner loop on
the same socket and passes the buffer, terminated at that length, to `data_received`:
when `recv` returned the number of bytes it stored, at most 127, in a buffer of 128 bytes
or more, the buffer handed over is exactly the received bytes, then the terminator 0, then
the old contents beyond it, and the red and yellow LEDs follow the first received byte (the
terminator when the chunk is empty). Steps of the callback and of the button task do not
move the session. -/
theorem recv_error_reconnects (rx_buffer : List Nat) (pins : Pins) (is : List Input)
    (r : Resp) (hest : established (run (init rx_buffer pins) is).1 = true) :
    (r.ret < 0 → ∀ r2 r3 : Resp,
      (step (run (init rx_buffer pins) is).1 (.task r)).2
        = [Call.recv (run (init rx_buffer pins) is).1.sock 127,
            Call.shutdown (run (init rx_buffer pins) is).1.sock,
            Call.close (run (init rx_buffer pins) is).1.sock] ∧
      (0 ≤ r2.ret →
        (run (run (init rx_buffer pins) is).1 [.task r, .task r2]).2
          = [Call.recv (run (init rx_buffer pins) is).1.sock 127,
              Call.shutdown (run (init rx_buffer pins) is).1.sock,
              Call.close (run (init rx_buffer pins) is).1.sock, Call.socket] ∧
        (step (run (run (init rx_buffer pins) is).1 [.task r, .task r2]).1 (.task r3)).2.head?
          = some (Call.connect r2.ret HOST_IP_ADDR PORT)) ∧
      (r2.ret < 0 →
        (run (run (init rx_buffer pins) is).1 [.task r, .task r2]).2
          = [Call.recv (run (init rx_buffer pins) is).1.sock 127,
              Call.shutdown (run (init rx_buffer pins) is).1.sock,
              Call.close (run (init rx_buffer pins) is).1.sock, Call.socket,
              Call.vTaskDelete])) ∧
    (0 ≤ r.ret →
      established (step (run (init rx_buffer pins) is).1 (.task r)).1 = true ∧
      (step (run (init rx_buffer pins) is).1 (.task r)).1.sock
        = (run (init rx_buffer pins) is).1.sock ∧
      (step (run (init rx_buffer pins) is).1 (.task r)).1.pins
        = data_received (store_chunk (run (init rx_buffer pins) is).1.rx_buffer r.ret r.data)
            (run (init rx_buffer pins) is).1.pins ∧
      (step (run (init rx_buffer pins) is).1 (.task r)).2
        = [Call.recv (run (init rx_buffer pins) is).1.sock 127, Call.vTaskDelay 10]) ∧
    (∀ i, notTask i = true →
      established (step (run (init rx_buffer pins) is).1 i).1 = true ∧
      (step (run (init rx_buffer pins) is).1 i).1.sock
        = (run (init rx_buffer pins) is).1.sock) ∧
    (r.ret = r.data.length → r.data.length ≤ RX_BUFFER_SIZE - 1 →
      RX_BUFFER_SIZE ≤ rx_buffer.length →
      (step (run (init rx_buffer pins) is).1 (.task r)).1.rx_buffer
        = r.data ++ 0 :: (run (init rx_buffer pins) is).1.rx_buffer.drop (r.data.length + 1) ∧
      (step (run (init rx_buffer pins) is).1 (.task r)).1.pins
        = data_received
            (r.data ++ 0 :: (run (init rx_buffer pins) is).1.rx_buffer.drop (r.data.length + 1))
            (run (init rx_buffer pins) is).1.pins ∧
      (step (run (init rx_buffer pins) is).1 (.task r)).1.pins GPIO_LED_RED
        = (if r.data.headD 0 = CHAR_0 then 1 else 0) ∧
      (step (run (init rx_buffer pins) is).1 (.task r)).1.pins GPIO_LED_YEL
        = (if r.data.headD 0 = CHAR_1 then 1 else 0)) := by
  have hinv := run_handleInv is _ (init_handleInv rx_buffer pins)
  have hbuf : rx_buffer.length ≤ (run (init rx_buffer pins) is).1.rx_buffer.length :=
    run_rx_buffer_length is (init rx_buffer pins)
  generalize (run (init rx_buffer pins) is).1 = s at hest hinv hbuf ⊢
  have hpc : s.pc = .at_recv := by simpa [established] using hest
  have hs : 0 ≤ s.sock := hinv.1 (Or.inr hpc)
  refine ⟨?_, ?_, ?_, ?_⟩
  rotate_left 3
  · intro hlen hmax hsize
    have hr : 0 ≤ r.ret := by rw [hlen]; exact Int.ofNat_nonneg _
    have h1 := tcp_client_task_recv_data s r hpc hr
    have hlt : r.data.length < s.rx_buffer.length := by
      simp only [RX_BUFFER_SIZE] at hmax hsize
      omega
    have hsc := store_chunk_eq s.rx_buffer r.ret r.data hlen hlt
    simp only [step, h1, hsc, true_and]
    constructor
    · rw [data_received_red, byteAt_chunk_head]
    · rw [data_received_yel, byteAt_chunk_head]
  · intro hr r2 r3
    have h1 := tcp_client_task_recv_error s r hpc hs hr
    refine ⟨by simp only [step, h1, RX_BUFFER_SIZE], ?_, ?_⟩
    · intro h2
      have hn : ¬ r2.ret < 0 := by omega
      constructor
      · simp only [run, step, h1]
        simp [tcp_client_task, hn, RX_BUFFER_SIZE]
      · simp only [run, step, h1]
        simp only [tcp_client_task, hn, if_false]
        split_ifs <;> rfl
    · intro h2
      simp only [run, step, h1]
      simp [tcp_client_task, h2, RX_BUFFER_SIZE]
  · intro hr
    have h1 := tcp_client_task_recv_data s r hpc hr
    simp only [step, h1, RX_BUFFER_SIZE]
    simp [established, hpc]
  · intro i hi
    cases i with
    | event e => simp [step, established, hpc]
    | task r => simp [notTask] at hi
    | button b1 b2 =>
      have hf := button_task_frame s b1 b2
      simp [step, established, hf.1, hf.2.1, hpc]

/-- Witness for C9: in an established session on descriptor 3, after a disassociation has
cleared both address flags, `recv` fails; the task tears the socket down, creates socket 4
and connects it to the fixed endpoint without waiting for the flags. And in an established
session with a zeroed 128-byte buffer, `recv` delivers the chunk `"10x"`: the buffer handed
to `data_received` is `"10x"`, the terminator and the old bytes beyond it, and yellow
follows the first byte `'1'`: evaluated, the buffer starts 49, 48, 120, 0, yellow is on
and red is off. -/
theorem recv_error_reconnects_witness :
    ((run (run (init [] (fun _ => 0)) scenarioDisassociated).1
      [.task ⟨-1, []⟩, .task ⟨4, []⟩]).2
      = [Call.recv (run (init [] (fun _ => 0)) scenarioDisassociated).1.sock 127,
          Call.shutdown (run (init [] (fun _ => 0)) scenarioDisassociated).1.sock,
          Call.close (run (init [] (fun _ => 0)) scenarioDisassociated).1.sock,
          Call.socket] ∧
    (step (run (run (init [] (fun _ => 0)) scenarioDisassociated).1
      [.task ⟨-1, []⟩, .task ⟨4, []⟩]).1 (.task ⟨0, []⟩)).2.head?
      = some (Call.connect 4 HOST_IP_ADDR PORT)) ∧
    ((step (run (init (List.replicate 128 0) (fun _ => 0)) scenarioEstablished).1
        (.task chunk10x)).1.rx_buffer
      = chunk10x.data ++ 0 ::
          (run (init (List.replicate 128 0) (fun _ => 0)) scenarioEstablished).1.rx_buffer.drop
            (chunk10x.data.length + 1) ∧
    (step (run (init (List.replicate 128 0) (fun _ => 0)) scenarioEstablished).1
        (.task chunk10x)).1.pins
      = data_received (chunk10x.data ++ 0 ::
          (run (init (List.replicate 128 0) (fun _ => 0)) scenarioEstablished).1.rx_buffer.drop
            (chunk10x.data.length + 1))
          (run (init (List.replicate 128 0) (fun _ => 0)) scenarioEstablished).1.pins ∧
    (step (run (init (List.replicate 128 0) (fun _ => 0)) scenarioEstablished).1
        (.task chunk10x)).1.pins GPIO_LED_RED
      = (if chunk10x.data.headD 0 = CHAR_0 then 1 else 0) ∧
    (step (run (init (List.replicate 128 0) (fun _ => 0)) scenarioEstablished).1
        (.task chunk10x)).1.pins GPIO_LED_YEL
      = (if chunk10x.data.headD 0 = CHAR_1 then 1 else 0)) ∧
    ((step (run (init (List.replicate 128 0) (fun _ => 0)) scenarioEstablished).1
        (.task chunk10x)).1.rx_buffer.take 4 = [49, 48, 120, 0] ∧
    (step (run (init (List.replicate 128 0) (fun _ => 0)) scenarioEstablished).1
        (.task chunk10x)).1.pins GPIO_LED_YEL = 1 ∧
    (step (run (init (List.replicate 128 0) (fun _ => 0)) scenarioEstablished).1
        (.task chunk10x)).1.pins GPIO_LED_RED = 0) := by
  have e : established (run (init [] (fun _ => 0)) scenarioDisassociated).1 = true := by decide
  have h := (recv_error_reconnects [] (fun _ => 0) scenarioDisassociated ⟨-1, []⟩ e).1
    (by decide) ⟨4, []⟩ ⟨0, []⟩
  have e2 : established
      (run (init (List.replicate 128 0) (fun _ => 0)) scenarioEstablished).1 = true := by decide
  have h2 := (recv_error_reconnects (List.replicate 128 0) (fun _ => 0) scenarioEstablished
    chunk10x e2).2.2.2 (by decide) (by decide) (by simp [RX_BUFFER_SIZE])
  exact ⟨h.2.1 (by decide), h2, by decide⟩

end TcpClient
